import Mathlib

/-!
# Voice-chat client: frame codec, playback queue, dispatcher and reconnect supervisor

A shallow embedding of `web/static/app.js` (namespace `Web`) and of
`webGoodluck/static/app.js` (namespace `Goodluck`), with the codec functions both files
share in `FrameCodec`.

* Samples are exact rationals; bytes, 16-bit integers and char codes are naturals and
  integers with the wrap-around of the typed array or `DataView` written out.
* A JavaScript string used as base64 text is a `List Char`; a binary string (one char per
  byte) is the list of its char codes.
* Global variables become fields of a state record; an `async` function is split at its
  `await`s into the part that runs at once and the parts that run when the awaited
  promise or timer settles, and those arrive as events.
* Calls into the browser that the claims talk about (sockets, timers, device release,
  starting a render) are appended to a trace held in the state.
-/

namespace FrameCodec

/-! ### PCM16 -/

/-- The clamp `Math.max(-1, Math.min(1, x))`. -/
def clampSample (x : ℚ) : ℚ := max (-1) (min 1 x)

/-- Rounding towards zero, the first step of the conversion `ToInt16` that `setInt16` and
an `Int16Array` store apply to a number. -/
def truncate (x : ℚ) : ℤ := if 0 ≤ x then ⌊x⌋ else ⌈x⌉

/-- The two bytes `view.setInt16(offset, value, true)` writes: the value truncated and
reduced modulo 2^16, low byte first. -/
def setInt16 (value : ℚ) : List ℕ :=
  let m := (truncate value % 65536).toNat
  [m % 256, m / 256]

/-- The function `float32ToPCM16(float32Array)`: the bytes of the `ArrayBuffer` it
returns. -/
def float32ToPCM16 (float32Array : List ℚ) : List ℕ :=
  float32Array.flatMap fun x =>
    let s := clampSample x
    setInt16 (if s < 0 then s * 0x8000 else s * 0x7FFF)

/-- The int16 value `float32ToPCM16` stores for one sample. -/
def quantize (x : ℚ) : ℤ :=
  let s := clampSample x
  truncate (if s < 0 then s * 0x8000 else s * 0x7FFF)

/-- A little-endian signed 16-bit integer read back from its two bytes. -/
def getInt16 (lo hi : ℕ) : ℤ :=
  let u : ℤ := (lo : ℤ) + 256 * (hi : ℤ)
  if 32768 ≤ u then u - 65536 else u

/-- One stored int16 read back as a float, in the words of the round-trip property:
`q / 0x7FFF` when `q ≥ 0` and `q / 0x8000` when `q < 0`. -/
def dequantize (q : ℤ) : ℚ := if 0 ≤ q then (q : ℚ) / 0x7FFF else (q : ℚ) / 0x8000

/-- The decoder of the round-trip property (the program itself has none): every pair of
bytes is read as a little-endian int16 and scaled back. -/
def decodeToFloat : List ℕ → List ℚ
  | lo :: hi :: rest => dequantize (getInt16 lo hi) :: decodeToFloat rest
  | _ => []

/-! ### Base64

`btoa` and `atob` are functions of the browser; they are written here as the standard
says: RFC 4648 encoding with padding, and the forgiving decoder of the HTML standard. -/

def base64Alphabet : List Char :=
  "ABCDEFGHIJKLMNOPQRSTUVWXYZabcdefghijklmnopqrstuvwxyz0123456789+/".toList

def sextetToChar (n : ℕ) : Char := base64Alphabet.getD n 'A'

def charToSextet (c : Char) : Option ℕ :=
  let i := base64Alphabet.indexOf c
  if i < 64 then some i else none

/-- The 6-bit groups of a byte string: four for every three bytes, three for a last
group of two bytes, two for a last single byte. -/
def btoaSextets : List ℕ → List ℕ
  | a :: b :: c :: rest =>
      a / 4 :: (a % 4 * 16 + b / 16) :: (b % 16 * 4 + c / 64) :: c % 64 :: btoaSextets rest
  | [a, b] => [a / 4, a % 4 * 16 + b / 16, b % 16 * 4]
  | [a] => [a / 4, a % 4 * 16]
  | [] => []

def btoaPadding (n : ℕ) : List Char := List.replicate ((3 - n % 3) % 3) '='

/-- The browser function `btoa(binary)`: it throws (`none`) when a char code exceeds
255. -/
def btoa (binary : List ℕ) : Option (List Char) :=
  if binary.all (fun c => decide (c < 256)) then
    some ((btoaSextets binary).map sextetToChar ++ btoaPadding binary.length)
  else none

def isAsciiWhitespace (c : Char) : Bool :=
  c == '\t' || c == '\n' || c == '\x0c' || c == '\r' || c == ' '

/-- When the length is a multiple of four, one or two trailing `=` are removed. -/
def stripPadding (data : List Char) : List Char :=
  if data.length % 4 = 0 then
    if data.getLast? = some '=' then
      if data.dropLast.getLast? = some '=' then data.dropLast.dropLast else data.dropLast
    else data
  else data

def charsToSextets : List Char → Option (List ℕ)
  | [] => some []
  | c :: cs =>
      match charToSextet c, charsToSextets cs with
      | some n, some ns => some (n :: ns)
      | _, _ => none

/-- Bytes from 6-bit groups: three for every four groups; a last group of three gives two
bytes and a last group of two gives one, the spare low bits being dropped. -/
def atobBytes : List ℕ → List ℕ
  | a :: b :: c :: d :: rest =>
      let n := a * 262144 + b * 4096 + c * 64 + d
      n / 65536 % 256 :: n / 256 % 256 :: n % 256 :: atobBytes rest
  | [a, b, c] =>
      let n := (a * 4096 + b * 64 + c) / 4
      [n / 256 % 256, n % 256]
  | [a, b] => [(a * 64 + b) / 16 % 256]
  | _ => []

/-- The browser function `atob(data)`: whitespace is dropped, padding stripped, and it
throws (`none`) when the length is 1 modulo 4 or a character is outside the alphabet. -/
def atob (data : List Char) : Option (List ℕ) :=
  let d := stripPadding (data.filter fun c => !isAsciiWhitespace c)
  if d.length % 4 = 1 then none
  else (charsToSextets d).map atobBytes

/-- The code unit of `String.fromCharCode(n)`. -/
def fromCharCode (n : ℕ) : ℕ := n % 65536

/-- The function `arrayBufferToBase64(buffer)`, the same in both files: the loop appends
one char per byte, then `btoa`. -/
def arrayBufferToBase64 (buffer : List ℕ) : Option (List Char) :=
  btoa (buffer.foldl (fun binary b => binary ++ [fromCharCode b]) [])

/-- The function `base64ToBuffer(base64)` of the second file: `atob`, then each char code
stored into a `Uint8Array`. -/
def base64ToBuffer (base64 : List Char) : Option (List ℕ) :=
  (atob base64).map fun binary_string => binary_string.map fun c => c % 256

/-- The little-endian signed 16-bit integers held by a buffer of bytes. -/
def int16Values : List ℕ → List ℤ
  | lo :: hi :: rest => getInt16 lo hi :: int16Values rest
  | _ => []

end FrameCodec

namespace Web

open FrameCodec

/-- The values of `WebSocket.readyState`. -/
inductive ReadyState
  | CONNECTING
  | OPEN
  | CLOSING
  | CLOSED
  deriving DecidableEq

/-- The class given to a transcript `div` by `addMessage(sender, content, type)`. -/
inductive Role
  | system
  | user
  | assistant
  | error
  deriving DecidableEq

/-- One `div.message` of the dialog box: the sender span, the content span and the class.
A field that the server left out of a message is `none` (JavaScript `undefined`); the
texts are kept as they were passed, not parsed as markup. -/
structure TranscriptEntry where
  sender : Option String
  content : Option String
  role : Role
  deriving DecidableEq

/-- An inbound message after `JSON.parse`, with the fields `handleServerMessage` reads.
An absent field is `none`; a field that is present holds a string, or a number for the
three numeric ones. -/
structure ServerMessage where
  type : Option String := none
  message : Option String := none
  text : Option String := none
  sample_rate : Option ℕ := none
  channels : Option ℕ := none
  format : Option String := none
  audio_format : Option String := none
  bit_depth : Option ℕ := none
  audio : Option String := none
  deriving DecidableEq

/-- The `audioConfig` object literal of the `audio_stream` case: all five keys are own
properties, each possibly `undefined`. -/
structure AudioConfig where
  sample_rate : Option ℕ
  channels : Option ℕ
  format : Option String
  audio_format : Option String
  bit_depth : Option ℕ
  deriving DecidableEq

/-- The `config` object built in `playAudioStream`:
`{sampleRate: .. || 24000, channels: .. || 1, format: .. || 'float32', ...audioConfig}`.
The spread comes last, so the keys `channels` and `format` end up holding the values of
`audioConfig`, whatever the defaults before them were. -/
structure Config where
  sampleRate : ℕ
  channels : Option ℕ
  format : Option String
  sample_rate : Option ℕ
  audio_format : Option String
  bit_depth : Option ℕ
  deriving DecidableEq

/-- An entry of `audioQueue`: `{ audioData, config }`. -/
structure QueueItem where
  audioData : String
  config : Config
  deriving DecidableEq

/-- Outbound messages (`ws.send(JSON.stringify(..))`). -/
inductive OutMessage
  | start_dialog
  | stop_dialog
  | audio_stream (audio : List Char)
  | clear
  deriving DecidableEq

/-- Calls into the platform, in the order the program makes them. -/
inductive Effect
  | newWebSocket
  | send (m : OutMessage)
  | wsClose
  | setTimeout (delay : ℕ)
  | getUserMedia
  | stopTracks
  | processorDisconnect
  | audioContextClose
  | playAudioFromQueue (item : QueueItem)
  deriving DecidableEq

/-- Where one invocation of the async function `processAudioQueue` stands. -/
inductive LoopState
  | sleeping
  | rendering (item : QueueItem)
  | exited
  deriving DecidableEq

/-- The `AudioContext.state` of the capture context, as far as `close()` depends on it. -/
inductive ContextState
  | running
  | closed
  deriving DecidableEq

/-- The global variables of `web/static/app.js`, the suspended async continuations and
the pending timers, the transcript held by the dialog box, and the trace of platform
calls made so far. -/
structure AppState where
  sockets : List ReadyState
  isDialogActive : Bool
  audioStream : Bool
  audioContext : Option ContextState
  processor : Bool
  audioQueue : List QueueItem
  isAudioPlaying : Bool
  audioPlaybackContext : Bool
  loops : List LoopState
  reconnectTimers : List ℕ
  pendingClose : List Bool
  pendingUserMedia : ℕ
  transcript : List TranscriptEntry
  status : Option String
  log : List Effect
  deriving DecidableEq

/-- The values of the `let` declarations at the top of the script, before any handler
has run; the dialog box starts without entries. -/
def AppState.initial : AppState where
  sockets := []
  isDialogActive := false
  audioStream := false
  audioContext := none
  processor := false
  audioQueue := []
  isAudioPlaying := false
  audioPlaybackContext := false
  loops := []
  reconnectTimers := []
  pendingClose := []
  pendingUserMedia := 0
  transcript := []
  status := none
  log := []

/-- JavaScript truthiness of a string-valued field: absent and `""` are falsy. -/
def truthy (v : Option String) : Bool :=
  match v with
  | some s => s != ""
  | none => false

/-- The value of `a || d` for a numeric field: absent and `0` are falsy. -/
def orDefault (v : Option ℕ) (d : ℕ) : ℕ :=
  match v with
  | some n => if n = 0 then d else n
  | none => d

/-- The method `String.prototype.includes`. -/
def includes (s sub : String) : Bool :=
  s.toList.tails.any fun t => sub.toList.isPrefixOf t

/-- The test `ws && ws.readyState === WebSocket.OPEN`; `ws` is the socket created last. -/
def wsIsOpen (s : AppState) : Bool :=
  s.sockets.getLast? == some ReadyState.OPEN

/-- One more platform call on the trace. -/
def emit (e : Effect) (s : AppState) : AppState :=
  { s with log := s.log ++ [e] }

/-- The payloads handed to `playAudioFromQueue` so far, in order. -/
def handed (s : AppState) : List QueueItem :=
  s.log.filterMap fun e =>
    match e with
    | .playAudioFromQueue item => some item
    | _ => none

/-- The function `updateStatus(status)`: the text of the status line. -/
def updateStatus (status : Option String) (s : AppState) : AppState :=
  { s with status := status }

/-- The function `addMessage(sender, content, type)`: one more entry at the end of the
dialog box. -/
def addMessage (sender content : Option String) (type : Role) (s : AppState) : AppState :=
  { s with transcript := s.transcript ++ [⟨sender, content, type⟩] }

/-- Sets the content of the last entry of class `assistant`; `none` when there is no
such entry (`messages.length > 0` fails). -/
def setLastAssistant (content : Option String) :
    List TranscriptEntry → Option (List TranscriptEntry)
  | [] => none
  | e :: es =>
      match setLastAssistant content es with
      | some es' => some (e :: es')
      | none =>
          if e.role = Role.assistant then some ({ e with content := content } :: es)
          else none

/-- The function `updateLastAssistantMessage(sender, content)`: the last assistant entry
gets the new content; without one, an entry is added. -/
def updateLastAssistantMessage (sender content : Option String) (s : AppState) : AppState :=
  match setLastAssistant content s.transcript with
  | some t => { s with transcript := t }
  | none => addMessage sender content Role.assistant s

/-- The function `clearDialog()`: the dialog box is reset to its welcome entry and the
server is told, when the socket is open. -/
def clearDialog (s : AppState) : AppState :=
  let s := { s with transcript :=
    [⟨some "系统：", some "欢迎使用豆包语音对话系统！点击下方按钮开启对话。", Role.system⟩] }
  if wsIsOpen s then emit (.send .clear) s else s

/-- One pass of `processAudioQueue` from the `while` test to the next `await`, or to the
exit of the loop: the state after it, and where the invocation now stands. -/
def loopBody (s : AppState) : AppState × LoopState :=
  if s.isAudioPlaying then
    match s.audioQueue with
    | item :: rest =>
        (emit (.playAudioFromQueue item) { s with audioQueue := rest }, .rendering item)
    | [] => (s, .sleeping)
  else (s, .exited)

/-- A call `processAudioQueue()`: a new invocation runs up to its first `await`. -/
def processAudioQueue (s : AppState) : AppState :=
  let r := loopBody s
  { r.1 with loops := r.1.loops ++ [r.2] }

/-- The invocation `i` of `processAudioQueue` continues after its `await`. -/
def resumeLoop (i : ℕ) (s : AppState) : AppState :=
  let r := loopBody s
  { r.1 with loops := r.1.loops.set i r.2 }

/-- The promise of `playAudioFromQueue` awaited by invocation `i` is resolved. -/
def renderEnded (i : ℕ) (s : AppState) : AppState :=
  match s.loops.get? i with
  | some (.rendering _) => resumeLoop i s
  | _ => s

/-- The 100 ms timer awaited by invocation `i` fires. -/
def pollTimer (i : ℕ) (s : AppState) : AppState :=
  match s.loops.get? i with
  | some .sleeping => resumeLoop i s
  | _ => s

/-- The function `initAudioQueue()`: the playback context is created once, and the loop
is started when the flag is not set. -/
def initAudioQueue (s : AppState) : AppState :=
  let s := if !s.audioPlaybackContext then { s with audioPlaybackContext := true } else s
  if !s.isAudioPlaying then processAudioQueue { s with isAudioPlaying := true } else s

/-- The function `addToAudioQueue(audioData, config)`: push, then make sure the loop is
running, going by the flag. -/
def addToAudioQueue (audioData : String) (config : Config) (s : AppState) : AppState :=
  let s := { s with audioQueue := s.audioQueue ++ [⟨audioData, config⟩] }
  if !s.isAudioPlaying then initAudioQueue s else s

/-- The function `clearAudioQueue()`: `audioQueue = []`. -/
def clearAudioQueue (s : AppState) : AppState :=
  { s with audioQueue := [] }

/-- The function `playAudioStream(base64Audio, audioConfig)`; reading
`base64Audio.length` of an absent `audio` field throws inside the `try`, and nothing is
queued. -/
def playAudioStream (base64Audio : Option String) (audioConfig : AudioConfig)
    (s : AppState) : AppState :=
  match base64Audio with
  | none => s
  | some audio =>
      let config : Config :=
        { sampleRate := orDefault audioConfig.sample_rate 24000
          channels := audioConfig.channels
          format := audioConfig.format
          sample_rate := audioConfig.sample_rate
          audio_format := audioConfig.audio_format
          bit_depth := audioConfig.bit_depth }
      addToAudioQueue audio config s

/-- The part of `stopDialog` that runs before its only `await`; when there is a capture
context, `audioContext.close()` is called and the rest waits for that promise, which
is rejected when the context was closed already. -/
def stopDialog (s : AppState) : AppState :=
  let s := { s with isDialogActive := false }
  let s := if wsIsOpen s then emit (.send .stop_dialog) s else s
  let s := if s.audioStream then { emit .stopTracks s with audioStream := false } else s
  let s := if s.processor then { emit .processorDisconnect s with processor := false } else s
  match s.audioContext with
  | some c =>
      { emit .audioContextClose s with
        audioContext := some .closed
        pendingClose := s.pendingClose ++ [decide (c = .running)] }
  | none => s

/-- The promise of `audioContext.close()` awaited first by a `stopDialog` settles: on
success the rest of the `try` block runs, on rejection the `catch` only logs. -/
def closeSettled (s : AppState) : AppState :=
  match s.pendingClose with
  | true :: rest => { s with audioContext := none, pendingClose := rest }
  | false :: rest => { s with pendingClose := rest }
  | [] => s

/-- The function `startDialog` up to `await navigator.mediaDevices.getUserMedia(..)`. -/
def startDialog (s : AppState) : AppState :=
  if wsIsOpen s then
    { emit .getUserMedia (emit (.send .start_dialog) s) with
      pendingUserMedia := s.pendingUserMedia + 1 }
  else s

/-- The promise of `getUserMedia` settles: the rest of `startDialog`, or its `catch`. -/
def userMediaSettled (granted : Bool) (s : AppState) : AppState :=
  match s.pendingUserMedia with
  | 0 => s
  | n + 1 =>
      let s := { s with pendingUserMedia := n }
      if granted then
        { s with audioStream := true, audioContext := some .running, processor := true,
                 isDialogActive := true }
      else updateStatus (some "麦克风权限被拒绝") s

/-- The callback `processor.onaudioprocess` for one captured frame. -/
def onaudioprocess (inputBuffer : List ℚ) (s : AppState) : AppState :=
  if s.isDialogActive && wsIsOpen s then
    match arrayBufferToBase64 (float32ToPCM16 inputBuffer) with
    | some base64Audio => emit (.send (.audio_stream base64Audio)) s
    | none => s
  else s

/-- The function `toggleDialog()`, up to the first `await` of the branch taken. -/
def toggleDialog (s : AppState) : AppState :=
  if !s.isDialogActive then startDialog s else stopDialog s

/-- The function `initializeWebSocket()`: a new socket, which becomes `ws`. -/
def initializeWebSocket (s : AppState) : AppState :=
  { emit .newWebSocket s with sockets := s.sockets ++ [ReadyState.CONNECTING] }

/-- The body of `ws.onclose`: status line, `stopDialog()` when a session is active (not
awaited), then the reconnect timer. -/
def onclose (s : AppState) : AppState :=
  let s := updateStatus (some "连接已断开") s
  let s := if s.isDialogActive then stopDialog s else s
  { emit (.setTimeout 3000) s with reconnectTimers := s.reconnectTimers ++ [3000] }

/-- The close event of socket `i`: it is delivered once, to a socket not closed yet. -/
def wsCloseEvent (i : ℕ) (s : AppState) : AppState :=
  match s.sockets.get? i with
  | some r =>
      if r = ReadyState.CLOSED then s
      else onclose { s with sockets := s.sockets.set i ReadyState.CLOSED }
  | none => s

/-- The open event of socket `i`. -/
def wsOpenEvent (i : ℕ) (s : AppState) : AppState :=
  match s.sockets.get? i with
  | some ReadyState.CONNECTING =>
      updateStatus (some "已连接") { s with sockets := s.sockets.set i ReadyState.OPEN }
  | _ => s

/-- The error event of a socket (`ws.onerror`). -/
def onerror (s : AppState) : AppState :=
  updateStatus (some "连接错误") s

/-- The oldest pending reconnect timer fires: the arrow function given to `setTimeout`. -/
def reconnectTimerFires (s : AppState) : AppState :=
  match s.reconnectTimers with
  | _ :: rest => initializeWebSocket { s with reconnectTimers := rest }
  | [] => s

/-- The call `ws.close()` on the current socket. -/
def wsClose (s : AppState) : AppState :=
  match s.sockets.getLast? with
  | some r =>
      let s := emit .wsClose s
      if r = ReadyState.CONNECTING ∨ r = ReadyState.OPEN then
        { s with sockets := s.sockets.set (s.sockets.length - 1) ReadyState.CLOSING }
      else s
  | none => s

/-- The `beforeunload` handler. -/
def beforeunload (s : AppState) : AppState :=
  let s := if s.isDialogActive then stopDialog s else s
  let s := wsClose s
  let s := { s with isAudioPlaying := false }
  clearAudioQueue s

/-- The `DOMContentLoaded` handler. -/
def domContentLoaded (s : AppState) : AppState :=
  initializeWebSocket (initAudioQueue s)

/-- The function `handleServerMessage(data)`: the `switch` compares `data.type` with each label in
turn. -/
def handleServerMessage (data : ServerMessage) (s : AppState) : AppState :=
  if data.type = some "welcome" then
    addMessage (some "系统") data.message Role.system s
  else if data.type = some "user_message" then
    addMessage data.message data.text Role.user s
  else if data.type = some "assistant_message" then
    addMessage data.message data.text Role.assistant s
  else if data.type = some "assistant_message_update" then
    updateLastAssistantMessage data.message data.text s
  else if data.type = some "audio_stream" then
    playAudioStream data.audio
      ⟨data.sample_rate, data.channels, data.format, data.audio_format, data.bit_depth⟩ s
  else if data.type = some "processing" then
    updateStatus (some "处理中...") s
  else if data.type = some "error" then
    updateStatus (some "错误") (addMessage data.message data.text Role.error s)
  else if data.type = some "clear" then
    clearDialog s
  else if data.type = some "status_update" then
    updateStatus data.message s
  else if data.type = some "debug_info" then
    if truthy data.message && includes (data.message.getD "") "事件450" then clearAudioQueue s
    else s
  else if truthy data.text then
    addMessage (some "未知") data.text Role.system s
  else s

/-- The message types with a `case` of their own in `handleServerMessage`. -/
def recognisedTypes : List String :=
  ["welcome", "user_message", "assistant_message", "assistant_message_update",
   "audio_stream", "processing", "error", "clear", "status_update", "debug_info"]

/-- The operations of the playback engine and the events its loop waits for. -/
inductive PlaybackEvent
  | initAudioQueue
  | addToAudioQueue (audioData : String) (config : Config)
  | clearAudioQueue
  | renderEnded (i : ℕ)
  | pollTimer (i : ℕ)
  | beforeunload
  deriving DecidableEq

/-- What an event does to the state: the function it names is called, or the loop
invocation it names continues. -/
def PlaybackEvent.apply (e : PlaybackEvent) (s : AppState) : AppState :=
  match e with
  | .initAudioQueue => Web.initAudioQueue s
  | .addToAudioQueue audioData config => Web.addToAudioQueue audioData config s
  | .clearAudioQueue => Web.clearAudioQueue s
  | .renderEnded i => Web.renderEnded i s
  | .pollTimer i => Web.pollTimer i s
  | .beforeunload => Web.beforeunload s

/-- The events applied from left to right. -/
def run (es : List PlaybackEvent) (s : AppState) : AppState :=
  es.foldl (fun s e => e.apply s) s

/-- The payloads the events pass to `addToAudioQueue`, in order. -/
def enqueued (es : List PlaybackEvent) : List QueueItem :=
  es.filterMap fun e =>
    match e with
    | .addToAudioQueue audioData config => some ⟨audioData, config⟩
    | _ => none

/-- No flush and no shutdown among the events. -/
def noFlush (es : List PlaybackEvent) : Bool :=
  es.all fun e =>
    match e with
    | .clearAudioQueue => false
    | .beforeunload => false
    | _ => true

/-- The invocations of `processAudioQueue` that have not returned. -/
def liveLoops (s : AppState) : List LoopState :=
  s.loops.filter fun l => l != LoopState.exited

/-- The payloads whose render an invocation is waiting on. -/
def rendering (s : AppState) : List QueueItem :=
  s.loops.filterMap fun l =>
    match l with
    | .rendering item => some item
    | _ => none

/-- Either the loop was never started and nothing is queued, or the flag is set and there
is exactly one invocation of `processAudioQueue`, which has not returned. -/
def SingleLoop (s : AppState) : Prop :=
  (s.isAudioPlaying = false ∧ s.loops = [] ∧ s.audioQueue = []) ∨
  (s.isAudioPlaying = true ∧ ∃ l, s.loops = [l] ∧ l ≠ LoopState.exited)

/-- The platform calls made while a payload is rendered, each of which may throw. -/
inductive Step
  | newFloat32Array
  | createBuffer
  | getChannelData
  | createBufferSource
  | connect
  | start
  | addLog
  deriving DecidableEq

/-- A statement of the rendering code: a platform call, or `source.onended = callback`. -/
inductive Stmt
  | call (step : Step)
  | setOnended
  deriving DecidableEq

/-- What has happened to the completion signal of one payload: how often the code called
it directly, whether it was stored in `source.onended`, and whether `source.start(0)`
returned. -/
structure Completion where
  called : ℕ
  onended : Bool
  started : Bool
  deriving DecidableEq

/-- The statements run in order until the call `throwsAt` throws; the flag tells whether
an exception left the block. -/
def exec : List Stmt → Option Step → Completion → Completion × Bool
  | [], _, c => (c, false)
  | .setOnended :: rest, throwsAt, c => exec rest throwsAt { c with onended := true }
  | .call step :: rest, throwsAt, c =>
      if throwsAt = some step then (c, true)
      else exec rest throwsAt (if step = Step.start then { c with started := true } else c)

/-- The `try` block of `playFloat32AudioFromQueue`. -/
def float32Block : List Stmt :=
  [.call .newFloat32Array, .call .createBuffer, .call .getChannelData,
   .call .createBufferSource, .call .connect, .setOnended, .call .start, .call .addLog]

/-- The success callback given to `decodeAudioData` by `playPCM16AudioFromQueue`. -/
def decodedBlock : List Stmt :=
  [.call .createBufferSource, .call .connect, .setOnended, .call .start, .call .addLog]

/-- The `catch` of the float32 path calls `callback()`. -/
def playFloat32AudioFromQueue (throwsAt : Option Step) (c : Completion) : Completion :=
  let r := exec float32Block throwsAt c
  if r.2 then { r.1 with called := r.1.called + 1 } else r.1

/-- A failed decode rejects the promise and `.catch` calls `callback()`. After a successful
decode the promise is resolved, so an exception thrown by the success callback is only
reported by the platform and `.catch` does not run. -/
def playPCM16AudioFromQueue (decodeSucceeds : Bool) (throwsAt : Option Step)
    (c : Completion) : Completion :=
  if decodeSucceeds then (exec decodedBlock throwsAt c).1
  else { c with called := c.called + 1 }

/-- The promise executor of `playAudioFromQueue` for one queue entry: `atob` throws on
text that is not base64 and the outer `catch` calls `resolve()`; otherwise the entry goes
to one of the two paths by `config.audio_format`. -/
def playAudioFromQueue (item : QueueItem) (decodeSucceeds : Bool) (throwsAt : Option Step) :
    Completion :=
  match atob item.audioData.toList with
  | none => ⟨1, false, false⟩
  | some _ =>
      if item.config.audio_format = some "float32" then
        playFloat32AudioFromQueue throwsAt ⟨0, false, false⟩
      else playPCM16AudioFromQueue decodeSucceeds throwsAt ⟨0, false, false⟩

/-- How often the completion signal ends up being invoked: the direct calls, and once more
when the source that carries it in `onended` was started and so ends. -/
def Completion.signals (c : Completion) : ℕ :=
  c.called + if c.onended && c.started then 1 else 0

/-- A float32 mono configuration as `playAudioStream` builds it from a message that
carries `audio_format: 'float32'`. -/
def float32Config : Config :=
  ⟨24000, none, none, none, some "float32", none⟩

/-- The configuration `playAudioStream` builds from a message with no format fields. -/
def bareConfig : Config :=
  ⟨24000, none, none, none, none, none⟩

/-- A state in which one payload is rendering and two more are queued. -/
def flushExample : AppState :=
  run [.initAudioQueue, .addToAudioQueue "QQ==" bareConfig, .pollTimer 0,
    .addToAudioQueue "Qg==" bareConfig, .addToAudioQueue "Qw==" bareConfig] AppState.initial

/-- No payload is stranded: a queue that is not empty has the flag set, and a set flag
has an invocation of `processAudioQueue` that has not returned. -/
def NotStranded (s : AppState) : Prop :=
  (s.audioQueue ≠ [] → s.isAudioPlaying = true) ∧
  (s.isAudioPlaying = true → liveLoops s ≠ [])

/-- The session fields that `stopDialog` resets: `isDialogActive`, `audioStream`,
`processor` and `audioContext`. -/
def sessionState (s : AppState) : Bool × Bool × Bool × Option ContextState :=
  (s.isDialogActive, s.audioStream, s.processor, s.audioContext)

/-- The pending promise number `k` of `audioContext.close()` settles; the promises of
several calls need not settle in the order of the calls (a rejection is known at once,
a close takes time). -/
def closeSettledAt (k : ℕ) (s : AppState) : AppState :=
  match s.pendingClose.get? k with
  | some true => { s with audioContext := none, pendingClose := s.pendingClose.eraseIdx k }
  | some false => { s with pendingClose := s.pendingClose.eraseIdx k }
  | none => s

/-- An `audio_stream` message that carries a payload (four zero bytes, one float32
sample) and none of the format fields. -/
def bareAudioMessage : ServerMessage :=
  { type := some "audio_stream", audio := some "AAAAAA==" }

/-- A session that is capturing: socket open, dialog started, microphone granted. -/
def activeExample : AppState :=
  userMediaSettled true (startDialog (wsOpenEvent 0 (domContentLoaded AppState.initial)))

end Web

namespace Goodluck

open FrameCodec
open Web (ReadyState Role TranscriptEntry truthy)

/-- The `payload_msg` field: a base64 string, or an object of which `content` is read. -/
inductive PayloadMsg
  | str (s : String)
  | obj (content : Option String)
  deriving DecidableEq

/-- An inbound message after `JSON.parse`, with the fields the second implementation
reads. An absent field is `none`. -/
structure ServerMessage where
  type : Option String := none
  message : Option String := none
  level : Option String := none
  text : Option String := none
  message_type : Option String := none
  payload_msg : Option PayloadMsg := none
  deriving DecidableEq

/-- Calls into the platform, in the order the program makes them. -/
inductive Effect
  | newWebSocket
  | sendClear
  | wsClose
  | setTimeout (delay : ℕ)
  | decodeAudioData (bytes : List ℕ)
  | sourceStart (buffer : List ℕ)
  deriving DecidableEq

/-- The global variables of `webGoodluck/static/app.js` that the connection, the
dispatcher and the playback queue use, the pending timers and decodes, the transcript
held by the dialog box, and the trace of platform calls. A decoded buffer is named by
the bytes it was decoded from. -/
structure AppState where
  sockets : List ReadyState
  reconnectTimers : List ℕ
  audioContext : Bool
  audioBufferQueue : List (List ℕ)
  isPlaying : Bool
  pendingDecode : List (List ℕ)
  transcript : List TranscriptEntry
  status : Option String
  log : List Effect
  deriving DecidableEq

def AppState.initial : AppState where
  sockets := []
  reconnectTimers := []
  audioContext := false
  audioBufferQueue := []
  isPlaying := false
  pendingDecode := []
  transcript := []
  status := none
  log := []

def emit (e : Effect) (s : AppState) : AppState :=
  { s with log := s.log ++ [e] }

def updateStatus (text : Option String) (s : AppState) : AppState :=
  { s with status := text }

/-- The function `addMessage(sender, text, type)`; the sender span shows the sender and a colon. -/
def addMessage (sender : String) (text : Option String) (type : Role) (s : AppState) :
    AppState :=
  { s with transcript := s.transcript ++ [⟨some (sender ++ "："), text, type⟩] }

/-- The function `updateAssistantMessage(text)`: the last child of the dialog box is
rewritten when it is an assistant entry, otherwise a new entry is added. -/
def updateAssistantMessage (text : Option String) (s : AppState) : AppState :=
  match s.transcript.getLast? with
  | some e =>
      if e.role = Role.assistant then
        { s with transcript := s.transcript.dropLast ++ [{ e with content := text }] }
      else addMessage "豆包" text Role.assistant s
  | none => addMessage "豆包" text Role.assistant s

def clearDialog (s : AppState) : AppState :=
  let s := { s with transcript :=
    [⟨some "系统：", some "对话已清空。按住下方按钮开始新的对话。", Role.system⟩] }
  if s.sockets.getLast? == some ReadyState.OPEN then emit .sendClear s else s

/-- The function `playQueue()`. -/
def playQueue (s : AppState) : AppState :=
  match s.audioBufferQueue with
  | [] => { s with isPlaying := false }
  | buffer :: rest =>
      emit (.sourceStart buffer) { s with isPlaying := true, audioBufferQueue := rest }

/-- The function `playAudio(arrayBuffer)` up to `await audioContext.decodeAudioData(..)`. -/
def playAudio (arrayBuffer : List ℕ) (s : AppState) : AppState :=
  { emit (.decodeAudioData arrayBuffer) s with
    audioContext := true
    pendingDecode := s.pendingDecode ++ [arrayBuffer] }

/-- The oldest pending `decodeAudioData` promise settles: the rest of `playAudio`. -/
def decodeSettled (ok : Bool) (s : AppState) : AppState :=
  match s.pendingDecode with
  | [] => s
  | bytes :: rest =>
      let s := { s with pendingDecode := rest }
      if ok then
        let s := { s with audioBufferQueue := s.audioBufferQueue ++ [bytes] }
        if !s.isPlaying then playQueue s else s
      else s

/-- The field `payload_msg` as the text `addMessage` interpolates. -/
def PayloadMsg.text : PayloadMsg → String
  | .str s => s
  | .obj _ => "[object Object]"

/-- The first `switch` of `handleServerMessage`, on `data.type`. -/
def switchType (data : ServerMessage) (s : AppState) : AppState :=
  if data.type = some "welcome" then addMessage "系统" data.message Role.system s
  else if data.type = some "log" then s
  else if data.type = some "user_message" then s
  else if data.type = some "assistant_message" then updateAssistantMessage data.text s
  else if data.type = some "error" then addMessage "错误" data.text Role.error s
  else if data.type = some "clear" then clearDialog s
  else s

/-- The second `switch` of `handleServerMessage`, on `data.message_type`: the state it
leaves, and whether an exception escaped (`base64ToBuffer` throws on text that is not
base64). -/
def switchMessageType (data : ServerMessage) (s : AppState) : AppState × Bool :=
  if data.message_type = some "SERVER_ACK" then
    match data.payload_msg with
    | some (.str p) =>
        if p != "" then
          match base64ToBuffer p.toList with
          | some audioData => (playAudio audioData s, false)
          | none => (s, true)
        else (s, false)
    | _ => (s, false)
  else if data.message_type = some "SERVER_FULL_RESPONSE" then
    match data.payload_msg with
    | some (.obj content) =>
        if truthy content then (updateAssistantMessage content s, false) else (s, false)
    | _ => (s, false)
  else if data.message_type = some "SERVER_ERROR_RESPONSE" then
    (addMessage "豆包API错误" (data.payload_msg.map PayloadMsg.text) Role.error s, false)
  else (s, false)

/-- The function `handleServerMessage(data)`: both switches run, one after the other; `ws.onmessage`
has no `try`, so an exception of the second leaves the handler. -/
def handleServerMessage (data : ServerMessage) (s : AppState) : AppState × Bool :=
  switchMessageType data (switchType data s)

/-- The message types with a `case` of their own in the first `switch`. -/
def recognisedTypes : List String :=
  ["welcome", "log", "user_message", "assistant_message", "error", "clear"]

/-- The values of `message_type` with a `case` of their own in the second `switch`. -/
def recognisedMessageTypes : List String :=
  ["SERVER_ACK", "SERVER_FULL_RESPONSE", "SERVER_ERROR_RESPONSE"]

def initializeWebSocket (s : AppState) : AppState :=
  { emit .newWebSocket s with sockets := s.sockets ++ [ReadyState.CONNECTING] }

/-- The body of `ws.onclose`. -/
def onclose (s : AppState) : AppState :=
  let s := updateStatus (some "连接已断开，正在尝试重新连接...") s
  { emit (.setTimeout 3000) s with reconnectTimers := s.reconnectTimers ++ [3000] }

/-- The close event of socket `i`: it is delivered once, to a socket not closed yet. -/
def wsCloseEvent (i : ℕ) (s : AppState) : AppState :=
  match s.sockets.get? i with
  | some r =>
      if r = ReadyState.CLOSED then s
      else onclose { s with sockets := s.sockets.set i ReadyState.CLOSED }
  | none => s

/-- The open event of socket `i`. -/
def wsOpenEvent (i : ℕ) (s : AppState) : AppState :=
  match s.sockets.get? i with
  | some ReadyState.CONNECTING =>
      updateStatus (some "已连接，请按住按钮开始对话")
        { s with sockets := s.sockets.set i ReadyState.OPEN }
  | _ => s

def onerror (s : AppState) : AppState :=
  updateStatus (some "连接错误") s

/-- The oldest pending reconnect timer fires:
`if (!ws || ws.readyState === WebSocket.CLOSED) initializeWebSocket()`. -/
def reconnectTimerFires (s : AppState) : AppState :=
  match s.reconnectTimers with
  | _ :: rest =>
      let s := { s with reconnectTimers := rest }
      match s.sockets.getLast? with
      | none => initializeWebSocket s
      | some r => if r = ReadyState.CLOSED then initializeWebSocket s else s
  | [] => s

/-- The `beforeunload` handler: `ws.close()` on the current socket. -/
def beforeunload (s : AppState) : AppState :=
  match s.sockets.getLast? with
  | some r =>
      let s := emit .wsClose s
      if r = ReadyState.CONNECTING ∨ r = ReadyState.OPEN then
        { s with sockets := s.sockets.set (s.sockets.length - 1) ReadyState.CLOSING }
      else s
  | none => s

/-- The `load` handler. -/
def load (s : AppState) : AppState :=
  initializeWebSocket s

/-- What can happen to the page once it is loaded. -/
inductive Event
  | wsOpen (i : ℕ)
  | wsMessage (data : ServerMessage)
  | wsError
  | wsClose (i : ℕ)
  | reconnectTimer
  | decodeSettled (ok : Bool)
  | sourceEnded
  | beforeunload
  deriving DecidableEq

def Event.apply (e : Event) (s : AppState) : AppState :=
  match e with
  | .wsOpen i => wsOpenEvent i s
  | .wsMessage data => (handleServerMessage data s).1
  | .wsError => onerror s
  | .wsClose i => wsCloseEvent i s
  | .reconnectTimer => reconnectTimerFires s
  | .decodeSettled ok => Goodluck.decodeSettled ok s
  | .sourceEnded => if s.isPlaying then playQueue s else s
  | .beforeunload => Goodluck.beforeunload s

/-- The state after the page has loaded and the events have been handled, left to right. -/
def run (es : List Event) : AppState :=
  es.foldl (fun s e => e.apply s) (load AppState.initial)

/-- The function `convertAudioBufferToPCM(audioBuffer)`: every sample of channel 0 is
clamped, multiplied by 0x7FFF and stored into an `Int16Array`, whose buffer is returned;
its bytes are given low byte first, the order of the platforms browsers run on. -/
def convertAudioBufferToPCM (channelData : List ℚ) : List ℕ :=
  channelData.flatMap fun x => setInt16 (clampSample x * 0x7FFF)

/-- The int16 value `convertAudioBufferToPCM` stores for one sample. -/
def pcmValue (x : ℚ) : ℤ := truncate (clampSample x * 0x7FFF)

/-- A `SERVER_ACK` message whose payload is base64 text. -/
def ackMessage (payload : String) : ServerMessage :=
  { message_type := some "SERVER_ACK", payload_msg := some (.str payload) }

/-- No decoded buffer is stranded: a queue that is not empty has `isPlaying` set. -/
def NotStranded (s : AppState) : Prop :=
  s.audioBufferQueue ≠ [] → s.isPlaying = true

/-- At most one socket is not closed and no reconnect timer is pending, or one timer is
pending and every socket is closed. -/
def OneChain (s : AppState) : Prop :=
  (s.reconnectTimers = [] ∧
    ∀ i j ri rj, s.sockets.get? i = some ri → ri ≠ ReadyState.CLOSED →
      s.sockets.get? j = some rj → rj ≠ ReadyState.CLOSED → i = j) ∨
  ((∃ d, s.reconnectTimers = [d]) ∧ ∀ r ∈ s.sockets, r = ReadyState.CLOSED)

end Goodluck

open FrameCodec Web

section Codec


theorem getInt16_setInt16 (t : ℤ) (h1 : -32768 ≤ t) (h2 : t ≤ 32767) :
    getInt16 ((t % 65536).toNat % 256) ((t % 65536).toNat / 256) = t := by
  unfold getInt16
  simp only []
  split <;> omega

theorem truncate_abs_sub_lt (v : ℚ) : |(truncate v : ℚ) - v| < 1 := by
  unfold truncate
  split
  · rw [abs_lt]; constructor
    · have := Int.lt_floor_add_one v; linarith
    · have := Int.floor_le v; linarith
  · rw [abs_lt]; constructor
    · have := Int.le_ceil v; linarith
    · have := Int.ceil_lt_add_one v; linarith

theorem truncate_nonneg {v : ℚ} (h : 0 ≤ v) : 0 ≤ truncate v := by
  unfold truncate; rw [if_pos h]; exact Int.floor_nonneg.mpr h

theorem truncate_nonpos {v : ℚ} (h : v ≤ 0) : truncate v ≤ 0 := by
  unfold truncate
  split
  · have : v = 0 := le_antisymm h ‹_›
    simp [this]
  · exact Int.ceil_le.mpr (by simpa using h)

theorem truncate_le {v : ℚ} {n : ℤ} (h : v ≤ n) : truncate v ≤ n := by
  unfold truncate
  split
  · have h3 : ((⌊v⌋ : ℤ) : ℚ) ≤ n := (Int.floor_le v).trans h
    exact_mod_cast h3
  · exact Int.ceil_le.mpr h

theorem le_truncate {v : ℚ} {n : ℤ} (h : (n : ℚ) ≤ v) : n ≤ truncate v := by
  unfold truncate
  split
  · exact Int.le_floor.mpr h
  · exact Int.le_ceil_iff.mpr (by linarith)

theorem clampSample_of_mem {x : ℚ} (h1 : -1 ≤ x) (h2 : x ≤ 1) : clampSample x = x := by
  unfold clampSample; rw [min_eq_right h2, max_eq_right h1]

theorem clampSample_bounds (x : ℚ) : -1 ≤ clampSample x ∧ clampSample x ≤ 1 := by
  unfold clampSample
  exact ⟨le_max_left _ _, max_le (by norm_num) (min_le_left _ _)⟩

theorem quantize_bounds (x : ℚ) : -32768 ≤ quantize x ∧ quantize x ≤ 32767 := by
  obtain ⟨h1, h2⟩ := clampSample_bounds x
  unfold quantize
  simp only []
  split
  · constructor
    · apply le_truncate; push_cast; linarith
    · have := truncate_nonpos (v := clampSample x * 0x8000) (by linarith); omega
  · constructor
    · have := truncate_nonneg (v := clampSample x * 0x7FFF) (by linarith); omega
    · apply truncate_le; push_cast; linarith

theorem decodeToFloat_float32ToPCM16_cons (x : ℚ) (xs : List ℚ) :
    decodeToFloat (float32ToPCM16 (x :: xs))
      = dequantize (quantize x) :: decodeToFloat (float32ToPCM16 xs) := by
  obtain ⟨h1, h2⟩ := quantize_bounds x
  have hq := getInt16_setInt16 (quantize x) h1 h2
  have hc : float32ToPCM16 (x :: xs)
      = (quantize x % 65536).toNat % 256 :: (quantize x % 65536).toNat / 256
          :: float32ToPCM16 xs := rfl
  rw [hc, decodeToFloat, hq]

theorem dequantize_quantize_close (x : ℚ) (h1 : -1 ≤ x) (h2 : x ≤ 1) :
    |dequantize (quantize x) - x| ≤ 1 / 32767 := by
  unfold quantize dequantize
  simp only [clampSample_of_mem h1 h2]
  by_cases hx : x < 0
  · simp only [if_pos hx]
    have ht := truncate_abs_sub_lt (x * 0x8000)
    have hnp := truncate_nonpos (v := x * 0x8000) (by linarith)
    rw [abs_lt] at ht
    split
    · have h0 : truncate (x * 0x8000) = 0 := le_antisymm hnp ‹_›
      rw [h0] at ht ⊢
      rw [abs_le]; constructor <;> norm_num at ht ⊢ <;> linarith
    · rw [abs_le]; constructor
      · rw [le_sub_iff_add_le, le_div_iff₀ (by norm_num)]
        linarith
      · rw [sub_le_iff_le_add, div_le_iff₀ (by norm_num)]
        linarith
  · simp only [if_neg hx]
    push_neg at hx
    have ht := truncate_abs_sub_lt (x * 0x7FFF)
    have hnn := truncate_nonneg (v := x * 0x7FFF) (by linarith)
    rw [abs_lt] at ht
    rw [if_pos hnn, abs_le]; constructor
    · rw [le_sub_iff_add_le, le_div_iff₀ (by norm_num)]
      linarith
    · rw [sub_le_iff_le_add, div_le_iff₀ (by norm_num)]
      linarith

/-- C1: for samples in [-1, 1], decoding the bytes written by `float32ToPCM16` gives as
many values as there were samples, each within 1/32767 of its sample. -/
theorem C1_pcm16_roundtrip (s : List ℚ) (hs : ∀ x ∈ s, -1 ≤ x ∧ x ≤ 1) :
    (decodeToFloat (float32ToPCM16 s)).length = s.length ∧
    List.Forall₂ (fun d x => |d - x| ≤ 1 / 32767) (decodeToFloat (float32ToPCM16 s)) s := by
  induction s with
  | nil => simp [float32ToPCM16, decodeToFloat]
  | cons x xs ih =>
    have hx := hs x (List.mem_cons_self _ _)
    obtain ⟨ihl, ihf⟩ := ih (fun y hy => hs y (List.mem_cons_of_mem _ hy))
    rw [decodeToFloat_float32ToPCM16_cons]
    exact ⟨by simp [ihl], List.Forall₂.cons (dequantize_quantize_close x hx.1 hx.2) ihf⟩

theorem C1_pcm16_roundtrip_witness :
    (∀ x ∈ [(1 : ℚ), -1, 1 / 2, -1 / 3], -1 ≤ x ∧ x ≤ 1) ∧
    ((decodeToFloat (float32ToPCM16 [1, -1, 1 / 2, -1 / 3])).length = 4 ∧
     List.Forall₂ (fun d x => |d - x| ≤ 1 / 32767)
      (decodeToFloat (float32ToPCM16 [1, -1, 1 / 2, -1 / 3])) [1, -1, 1 / 2, -1 / 3]) :=
  ⟨by norm_num, C1_pcm16_roundtrip [1, -1, 1 / 2, -1 / 3] (by norm_num)⟩




theorem charToSextet_sextetToChar (n : ℕ) (h : n < 64) :
    charToSextet (sextetToChar n) = some n := by
  have key : ∀ k : Fin 64, charToSextet (sextetToChar k) = some k.val := by decide
  exact key ⟨n, h⟩

theorem sextetToChar_plain (n : ℕ) (h : n < 64) :
    sextetToChar n ≠ '=' ∧ isAsciiWhitespace (sextetToChar n) = false := by
  have key : ∀ k : Fin 64,
      sextetToChar k ≠ '=' ∧ isAsciiWhitespace (sextetToChar k) = false := by decide
  exact key ⟨n, h⟩

theorem btoaSextets_lt (l : List ℕ) (hl : ∀ x ∈ l, x < 256) :
    ∀ n ∈ btoaSextets l, n < 64 := by
  induction l using btoaSextets.induct with
  | case1 a b c rest ih =>
    intro n hn
    have ha := hl a (by simp)
    have hb := hl b (by simp)
    have hc := hl c (by simp)
    simp only [btoaSextets, List.mem_cons] at hn
    rcases hn with rfl | rfl | rfl | rfl | hn
    · omega
    · omega
    · omega
    · omega
    · exact ih (fun x hx => hl x (by simp [hx])) n hn
  | case2 a b =>
    intro n hn
    have ha := hl a (by simp)
    have hb := hl b (by simp)
    simp only [btoaSextets, List.mem_cons, List.mem_singleton] at hn
    rcases hn with rfl | rfl | rfl | hn
    · omega
    · omega
    · omega
    · simp at hn
  | case3 a =>
    intro n hn
    have ha := hl a (by simp)
    simp only [btoaSextets, List.mem_cons, List.mem_singleton] at hn
    rcases hn with rfl | rfl | hn
    · omega
    · omega
    · simp at hn
  | case4 => simp [btoaSextets]

theorem atobBytes_btoaSextets (l : List ℕ) (hl : ∀ x ∈ l, x < 256) :
    atobBytes (btoaSextets l) = l := by
  induction l using btoaSextets.induct with
  | case1 a b c rest ih =>
    have ha := hl a (by simp)
    have hb := hl b (by simp)
    have hc := hl c (by simp)
    simp only [btoaSextets, atobBytes, ih (fun x hx => hl x (by simp [hx]))]
    congr 1
    · omega
    · congr 1
      · omega
      · congr 1
        omega
  | case2 a b =>
    have ha := hl a (by simp)
    have hb := hl b (by simp)
    simp only [btoaSextets, atobBytes]
    congr 1
    · omega
    · congr 1
      omega
  | case3 a =>
    have ha := hl a (by simp)
    simp only [btoaSextets, atobBytes]
    congr 1
    omega
  | case4 => simp [btoaSextets, atobBytes]

theorem btoaSextets_length (l : List ℕ) : (btoaSextets l).length = (4 * l.length + 2) / 3 := by
  induction l using btoaSextets.induct with
  | case1 a b c rest ih => simp only [btoaSextets, List.length_cons, ih]; omega
  | case2 a b => simp [btoaSextets]
  | case3 a => simp [btoaSextets]
  | case4 => simp [btoaSextets]

theorem charsToSextets_map (l : List ℕ) (hl : ∀ n ∈ l, n < 64) :
    charsToSextets (l.map sextetToChar) = some l := by
  induction l with
  | nil => rfl
  | cons n ns ih =>
    simp only [List.map_cons, charsToSextets,
      charToSextet_sextetToChar n (hl n (by simp)), ih (fun m hm => hl m (by simp [hm]))]

theorem getLast?_ne_of_forall_ne (S : List Char) (c : Char) (h : ∀ x ∈ S, x ≠ c) :
    S.getLast? ≠ some c := by
  intro hc
  exact h c (List.mem_of_getLast?_eq_some hc) rfl

theorem filter_plain (S : List Char) (h : ∀ x ∈ S, isAsciiWhitespace x = false) :
    S.filter (fun c => !isAsciiWhitespace c) = S := by
  rw [List.filter_eq_self]
  intro x hx
  simp [h x hx]

theorem stripPadding_encoded (S : List Char) (k : ℕ) (hS : ∀ x ∈ S, x ≠ '=')
    (hk : k ≤ 2) (hlen : (S.length + k) % 4 = 0) :
    stripPadding (S ++ List.replicate k '=') = S := by
  have hlast := getLast?_ne_of_forall_ne S '=' hS
  unfold stripPadding
  rw [if_pos (by simpa using hlen)]
  interval_cases k
  · simp [hlast]
  · simp [List.dropLast_concat, hlast]
  · have h2 : S ++ List.replicate 2 '=' = (S ++ ['=']) ++ ['='] := by simp [List.replicate]
    rw [h2]
    simp [List.dropLast_concat]

theorem base64_length_arith (n : ℕ) :
    (3 - n % 3) % 3 ≤ 2 ∧ ((4 * n + 2) / 3 + (3 - n % 3) % 3) % 4 = 0 ∧
      (4 * n + 2) / 3 % 4 ≠ 1 := by
  have h3 : n % 3 = 0 ∨ n % 3 = 1 ∨ n % 3 = 2 := by omega
  rcases h3 with h | h | h <;> rw [h] <;> omega

theorem atob_btoa (binary : List ℕ) (h : ∀ x ∈ binary, x < 256) :
    (btoa binary).bind atob = some binary := by
  have hall : binary.all (fun c => decide (c < 256)) = true := by
    simpa [List.all_eq_true] using h
  have hs := btoaSextets_lt binary h
  have hS : ∀ x ∈ (btoaSextets binary).map sextetToChar,
      x ≠ '=' ∧ isAsciiWhitespace x = false := by
    intro x hx
    obtain ⟨n, hn, rfl⟩ := List.mem_map.mp hx
    exact sextetToChar_plain n (hs n hn)
  have hpadws : ∀ x ∈ btoaPadding binary.length, isAsciiWhitespace x = false := by
    intro x hx
    have := List.eq_of_mem_replicate hx
    subst this
    decide
  have hlen := btoaSextets_length binary
  simp only [btoa, hall, if_true, Option.some_bind, atob]
  rw [filter_plain _ (by
    intro x hx
    rcases List.mem_append.mp hx with hx | hx
    · exact (hS x hx).2
    · exact hpadws x hx)]
  unfold btoaPadding
  obtain ⟨ha1, ha2, ha3⟩ := base64_length_arith binary.length
  rw [stripPadding_encoded _ _ (fun x hx => (hS x hx).1) ha1
    (by rw [List.length_map, hlen]; exact ha2)]
  rw [if_neg (by rw [List.length_map, hlen]; exact ha3), charsToSextets_map _ hs]
  simp [atobBytes_btoaSextets binary h]

theorem foldl_fromCharCode (buffer acc : List ℕ) (h : ∀ x ∈ buffer, x < 256) :
    buffer.foldl (fun binary b => binary ++ [fromCharCode b]) acc = acc ++ buffer := by
  induction buffer generalizing acc with
  | nil => simp
  | cons x xs ih =>
    have hx : fromCharCode x = x := by
      have := h x (by simp)
      unfold fromCharCode; omega
    simp [List.foldl_cons, ih _ (fun y hy => h y (by simp [hy])), hx]

theorem map_mod_256 (b : List ℕ) (hb : ∀ x ∈ b, x < 256) :
    b.map (fun c => c % 256) = b := by
  induction b with
  | nil => rfl
  | cons x xs ih =>
    rw [List.map_cons, ih (fun y hy => hb y (List.mem_cons_of_mem _ hy)),
      Nat.mod_eq_of_lt (hb x (List.mem_cons_self _ _))]

/-- C2: for every buffer of bytes, of any length, `base64ToBuffer` applied to the text
produced by `arrayBufferToBase64` succeeds and returns the same bytes. -/
theorem C2_base64_roundtrip (b : List ℕ) (hb : ∀ x ∈ b, x < 256) :
    (arrayBufferToBase64 b).bind base64ToBuffer = some b := by
  have hfold := foldl_fromCharCode b [] hb
  simp only [List.nil_append] at hfold
  have hround := atob_btoa b hb
  unfold arrayBufferToBase64 base64ToBuffer
  rw [hfold]
  cases hbt : btoa b with
  | none => simp [hbt] at hround
  | some t =>
    rw [hbt] at hround
    simp only [Option.some_bind] at hround ⊢
    rw [hround]
    simp only [Option.map_some', Option.some.injEq]
    exact map_mod_256 b hb

theorem C2_base64_roundtrip_witness :
    (∀ x ∈ [72, 105, 33, 255, 0], x < 256) ∧
      (arrayBufferToBase64 [72, 105, 33, 255, 0]).bind base64ToBuffer
        = some [72, 105, 33, 255, 0] :=
  ⟨by decide, C2_base64_roundtrip [72, 105, 33, 255, 0] (by decide)⟩

end Codec


section PlaybackLemmas

@[simp] theorem handed_emit_play (item : QueueItem) (s : AppState) :
    handed (emit (.playAudioFromQueue item) s) = handed s ++ [item] := by
  simp [handed, emit, List.filterMap_append]

theorem run_nil (s : AppState) : run [] s = s := rfl

theorem run_cons (e : PlaybackEvent) (es : List PlaybackEvent) (s : AppState) :
    run (e :: es) s = run es (e.apply s) := rfl

theorem run_append (es fs : List PlaybackEvent) (s : AppState) :
    run (es ++ fs) s = run fs (run es s) := by
  simp [run, List.foldl_append]

theorem enqueued_cons (e : PlaybackEvent) (es : List PlaybackEvent) :
    enqueued (e :: es) = enqueued [e] ++ enqueued es := by
  cases e <;> simp [enqueued, List.filterMap_cons]

/-- What one pass of the loop does to the queue and to the trace of renders. -/
theorem loopBody_cases (s : AppState) :
    (s.isAudioPlaying = false ∧ loopBody s = (s, .exited)) ∨
    (s.isAudioPlaying = true ∧ s.audioQueue = [] ∧ loopBody s = (s, .sleeping)) ∨
    (s.isAudioPlaying = true ∧ ∃ item rest, s.audioQueue = item :: rest ∧
      loopBody s = (emit (.playAudioFromQueue item) { s with audioQueue := rest },
        .rendering item)) := by
  cases hp : s.isAudioPlaying
  · left; simp [loopBody, hp]
  · right
    cases hq : s.audioQueue with
    | nil => left; simp [loopBody, hp, hq]
    | cons item rest => right; exact ⟨rfl, item, rest, rfl, by simp [loopBody, hp, hq]⟩

theorem loopBody_conserve (s : AppState) :
    ∃ t, handed (loopBody s).1 = handed s ++ t ∧ t ++ (loopBody s).1.audioQueue = s.audioQueue ∧
      (loopBody s).1.isAudioPlaying = s.isAudioPlaying ∧ (loopBody s).1.loops = s.loops ∧
      ((loopBody s).2 = .exited ↔ s.isAudioPlaying = false) := by
  rcases loopBody_cases s with ⟨hp, h⟩ | ⟨hp, hq, h⟩ | ⟨hp, item, rest, hq, h⟩
  · exact ⟨[], by simp [h, hp]⟩
  · exact ⟨[], by simp [h, hp]⟩
  · exact ⟨[item], by simp [h, hp, hq, emit, handed, List.filterMap_append]⟩

theorem processAudioQueue_spec (s : AppState) :
    ∃ t l, handed (processAudioQueue s) = handed s ++ t ∧
      t ++ (processAudioQueue s).audioQueue = s.audioQueue ∧
      (processAudioQueue s).isAudioPlaying = s.isAudioPlaying ∧
      (processAudioQueue s).loops = s.loops ++ [l] ∧
      (l = .exited ↔ s.isAudioPlaying = false) := by
  obtain ⟨t, h1, h2, h3, h4, h5⟩ := loopBody_conserve s
  exact ⟨t, (loopBody s).2, by simpa [processAudioQueue, handed] using h1,
    by simpa [processAudioQueue] using h2, by simpa [processAudioQueue] using h3,
    by simp [processAudioQueue, h4], h5⟩

theorem resumeLoop_spec (i : ℕ) (s : AppState) :
    ∃ t l, handed (resumeLoop i s) = handed s ++ t ∧
      t ++ (resumeLoop i s).audioQueue = s.audioQueue ∧
      (resumeLoop i s).isAudioPlaying = s.isAudioPlaying ∧
      (resumeLoop i s).loops = s.loops.set i l ∧
      (l = .exited ↔ s.isAudioPlaying = false) := by
  obtain ⟨t, h1, h2, h3, h4, h5⟩ := loopBody_conserve s
  exact ⟨t, (loopBody s).2, by simpa [resumeLoop, handed] using h1,
    by simpa [resumeLoop] using h2, by simpa [resumeLoop] using h3,
    by simp [resumeLoop, h4], h5⟩

theorem initAudioQueue_spec (s : AppState) :
    (s.isAudioPlaying = true ∧ handed (initAudioQueue s) = handed s ∧
      (initAudioQueue s).audioQueue = s.audioQueue ∧
      (initAudioQueue s).isAudioPlaying = true ∧ (initAudioQueue s).loops = s.loops) ∨
    (s.isAudioPlaying = false ∧ ∃ t l, handed (initAudioQueue s) = handed s ++ t ∧
      t ++ (initAudioQueue s).audioQueue = s.audioQueue ∧
      (initAudioQueue s).isAudioPlaying = true ∧
      (initAudioQueue s).loops = s.loops ++ [l] ∧ l ≠ .exited) := by
  cases hp : s.isAudioPlaying
  · right
    refine ⟨rfl, ?_⟩
    cases hc : s.audioPlaybackContext
    · obtain ⟨t, l, h1, h2, h3, h4, h5⟩ := processAudioQueue_spec
        { s with audioPlaybackContext := true, isAudioPlaying := true }
      refine ⟨t, l, ?_, ?_, ?_, ?_, ?_⟩
      · simpa [initAudioQueue, hp, hc, handed] using h1
      · simpa [initAudioQueue, hp, hc] using h2
      · simpa [initAudioQueue, hp, hc] using h3
      · simpa [initAudioQueue, hp, hc] using h4
      · intro hl; simpa using h5.mp hl
    · obtain ⟨t, l, h1, h2, h3, h4, h5⟩ := processAudioQueue_spec
        { s with isAudioPlaying := true }
      refine ⟨t, l, ?_, ?_, ?_, ?_, ?_⟩
      · simpa [initAudioQueue, hp, hc, handed] using h1
      · simpa [initAudioQueue, hp, hc] using h2
      · simpa [initAudioQueue, hp, hc] using h3
      · simpa [initAudioQueue, hp, hc] using h4
      · intro hl; simpa using h5.mp hl
  · left
    cases hc : s.audioPlaybackContext <;> simp [initAudioQueue, hp, hc, handed]

theorem addToAudioQueue_spec (audioData : String) (config : Config) (s : AppState) :
    (s.isAudioPlaying = true ∧ handed (addToAudioQueue audioData config s) = handed s ∧
      (addToAudioQueue audioData config s).audioQueue = s.audioQueue ++ [⟨audioData, config⟩] ∧
      (addToAudioQueue audioData config s).isAudioPlaying = true ∧
      (addToAudioQueue audioData config s).loops = s.loops) ∨
    (s.isAudioPlaying = false ∧ ∃ t l, handed (addToAudioQueue audioData config s) = handed s ++ t ∧
      t ++ (addToAudioQueue audioData config s).audioQueue
        = s.audioQueue ++ [⟨audioData, config⟩] ∧
      (addToAudioQueue audioData config s).isAudioPlaying = true ∧
      (addToAudioQueue audioData config s).loops = s.loops ++ [l] ∧ l ≠ .exited) := by
  cases hp : s.isAudioPlaying
  · right
    refine ⟨rfl, ?_⟩
    rcases initAudioQueue_spec { s with audioQueue := s.audioQueue ++ [⟨audioData, config⟩] }
      with ⟨h, _⟩ | ⟨_, t, l, h1, h2, h3, h4, h5⟩
    · simp [hp] at h
    · refine ⟨t, l, ?_, ?_, ?_, ?_, h5⟩
      · simpa [addToAudioQueue, hp, handed] using h1
      · simpa [addToAudioQueue, hp] using h2
      · simpa [addToAudioQueue, hp] using h3
      · simpa [addToAudioQueue, hp] using h4
  · left
    simp [addToAudioQueue, hp, handed]

/-- Resuming the only invocation keeps the invariant and moves at most the head of the
queue to the trace of renders. -/
theorem resumeLoop_single (s : AppState) (hp : s.isAudioPlaying = true) (l : LoopState)
    (hl : s.loops = [l]) :
    SingleLoop (resumeLoop 0 s) ∧
      handed (resumeLoop 0 s) ++ (resumeLoop 0 s).audioQueue = handed s ++ s.audioQueue := by
  obtain ⟨t, l2, h1, h2, h3, h4, h5⟩ := resumeLoop_spec 0 s
  constructor
  · right
    refine ⟨by rw [h3, hp], l2, by rw [h4, hl]; rfl, ?_⟩
    intro h
    rw [h5.mp h] at hp
    exact Bool.noConfusion hp
  · rw [h1, List.append_assoc, h2]

theorem apply_single (e : PlaybackEvent) (s : AppState) (he : noFlush [e] = true)
    (hs : SingleLoop s) :
    SingleLoop (e.apply s) ∧
      handed (e.apply s) ++ (e.apply s).audioQueue
        = handed s ++ s.audioQueue ++ enqueued [e] := by
  cases e with
  | initAudioQueue =>
    simp only [PlaybackEvent.apply, enqueued, List.filterMap_cons, List.filterMap_nil,
      List.append_nil]
    rcases initAudioQueue_spec s with ⟨hp, h1, h2, h3, h4⟩ | ⟨hp, t, l, h1, h2, h3, h4, h5⟩
    · rcases hs with ⟨hf, _⟩ | ⟨_, l, hl, hne⟩
      · rw [hf] at hp; exact Bool.noConfusion hp
      · exact ⟨Or.inr ⟨h3, l, by rw [h4, hl], hne⟩, by rw [h1, h2]⟩
    · rcases hs with ⟨_, hl, _⟩ | ⟨ht, _⟩
      · exact ⟨Or.inr ⟨h3, l, by rw [h4, hl]; rfl, h5⟩, by rw [h1, List.append_assoc, h2]⟩
      · rw [ht] at hp; exact Bool.noConfusion hp
  | addToAudioQueue audioData config =>
    simp only [PlaybackEvent.apply, enqueued, List.filterMap_cons, List.filterMap_nil]
    rcases addToAudioQueue_spec audioData config s
      with ⟨hp, h1, h2, h3, h4⟩ | ⟨hp, t, l, h1, h2, h3, h4, h5⟩
    · rcases hs with ⟨hf, _⟩ | ⟨_, l, hl, hne⟩
      · rw [hf] at hp; exact Bool.noConfusion hp
      · exact ⟨Or.inr ⟨h3, l, by rw [h4, hl], hne⟩, by rw [h1, h2, List.append_assoc]⟩
    · rcases hs with ⟨_, hl, _⟩ | ⟨ht, _⟩
      · exact ⟨Or.inr ⟨h3, l, by rw [h4, hl]; rfl, h5⟩,
          by rw [h1, List.append_assoc, h2, List.append_assoc]⟩
      · rw [ht] at hp; exact Bool.noConfusion hp
  | clearAudioQueue => simp [noFlush] at he
  | beforeunload => simp [noFlush] at he
  | renderEnded i =>
    simp only [PlaybackEvent.apply, enqueued, List.filterMap_cons, List.filterMap_nil,
      List.append_nil]
    rcases hs with ⟨hf, hl, hq⟩ | ⟨ht, l, hl, hne⟩
    · have : renderEnded i s = s := by simp [renderEnded, hl]
      rw [this]; exact ⟨Or.inl ⟨hf, hl, hq⟩, rfl⟩
    · cases i with
      | zero =>
        cases l with
        | rendering item =>
          have : renderEnded 0 s = resumeLoop 0 s := by simp [renderEnded, hl]
          rw [this]; exact resumeLoop_single s ht _ hl
        | sleeping =>
          have : renderEnded 0 s = s := by simp [renderEnded, hl]
          rw [this]; exact ⟨Or.inr ⟨ht, _, hl, hne⟩, rfl⟩
        | exited => exact absurd rfl hne
      | succ n =>
        have : renderEnded (n + 1) s = s := by simp [renderEnded, hl]
        rw [this]; exact ⟨Or.inr ⟨ht, l, hl, hne⟩, rfl⟩
  | pollTimer i =>
    simp only [PlaybackEvent.apply, enqueued, List.filterMap_cons, List.filterMap_nil,
      List.append_nil]
    rcases hs with ⟨hf, hl, hq⟩ | ⟨ht, l, hl, hne⟩
    · have : pollTimer i s = s := by simp [pollTimer, hl]
      rw [this]; exact ⟨Or.inl ⟨hf, hl, hq⟩, rfl⟩
    · cases i with
      | zero =>
        cases l with
        | sleeping =>
          have : pollTimer 0 s = resumeLoop 0 s := by simp [pollTimer, hl]
          rw [this]; exact resumeLoop_single s ht _ hl
        | rendering item =>
          have : pollTimer 0 s = s := by simp [pollTimer, hl]
          rw [this]; exact ⟨Or.inr ⟨ht, _, hl, hne⟩, rfl⟩
        | exited => exact absurd rfl hne
      | succ n =>
        have : pollTimer (n + 1) s = s := by simp [pollTimer, hl]
        rw [this]; exact ⟨Or.inr ⟨ht, l, hl, hne⟩, rfl⟩

theorem noFlush_cons (e : PlaybackEvent) (es : List PlaybackEvent) :
    noFlush (e :: es) = (noFlush [e] && noFlush es) := by
  simp [noFlush]

theorem run_single (es : List PlaybackEvent) (s : AppState) (he : noFlush es = true)
    (hs : SingleLoop s) :
    SingleLoop (run es s) ∧
      handed (run es s) ++ (run es s).audioQueue = handed s ++ s.audioQueue ++ enqueued es := by
  induction es generalizing s with
  | nil => simp [run_nil, enqueued, hs]
  | cons e es ih =>
    rw [noFlush_cons, Bool.and_eq_true] at he
    obtain ⟨h1, h2⟩ := apply_single e s he.1 hs
    obtain ⟨h3, h4⟩ := ih (e.apply s) he.2 h1
    rw [run_cons, enqueued_cons]
    exact ⟨h3, by rw [h4, h2, List.append_assoc]⟩

theorem resumeLoop_head (s : AppState) (hp : s.isAudioPlaying = true) (l : LoopState)
    (hl : s.loops = [l]) (item : QueueItem) (rest : List QueueItem)
    (hq : s.audioQueue = item :: rest) :
    (resumeLoop 0 s).isAudioPlaying = true ∧ (resumeLoop 0 s).loops = [.rendering item] ∧
      (resumeLoop 0 s).audioQueue = rest ∧ handed (resumeLoop 0 s) = handed s ++ [item] := by
  simp [resumeLoop, loopBody, hp, hq, hl, emit, handed, List.filterMap_append]

theorem handed_renderEnded_of_nil (i : ℕ) (s : AppState) (hq : s.audioQueue = []) :
    handed (renderEnded i s) = handed s := by
  unfold renderEnded
  split
  · obtain ⟨t, l, h1, h2, _⟩ := resumeLoop_spec i s
    rw [hq] at h2
    rw [h1, (List.append_eq_nil.mp h2).1, List.append_nil]
  · rfl

/-- While the only invocation is waiting on a render, one render-completion event per
queued payload hands the whole queue to `playAudioFromQueue`, in order. -/
theorem drain (q : List QueueItem) :
    ∀ (s : AppState) (y : QueueItem), s.isAudioPlaying = true → s.loops = [.rendering y] →
      s.audioQueue = q →
      handed (run (List.replicate q.length (.renderEnded 0)) s) = handed s ++ q ∧
        (run (List.replicate q.length (.renderEnded 0)) s).audioQueue = [] := by
  induction q with
  | nil =>
    intro s y _ _ hq
    simp [run_nil, hq]
  | cons x r ih =>
    intro s y hp hl hq
    obtain ⟨h1, h2, h3, h4⟩ := resumeLoop_head s hp _ hl x r hq
    have hstep : PlaybackEvent.apply (.renderEnded 0) s = resumeLoop 0 s := by
      simp [PlaybackEvent.apply, renderEnded, hl]
    rw [List.length_cons, List.replicate_succ, run_cons, hstep]
    obtain ⟨h5, h6⟩ := ih (resumeLoop 0 s) x h1 h2 h3
    exact ⟨by rw [h5, h4, List.append_assoc]; rfl, h6⟩

end PlaybackLemmas

theorem SingleLoop_initial : SingleLoop AppState.initial :=
  Or.inl ⟨rfl, rfl, rfl⟩

/-- C3: from page load, with no flush and no shutdown among the events, the payloads handed
to `playAudioFromQueue` followed by those still queued are exactly the payloads passed
to `addToAudioQueue`, in the same order; and once the loop's pending timer and one
render completion per queued payload have arrived, all of them have been handed over. -/
theorem C3_fifo_order (es : List PlaybackEvent) (he : noFlush es = true) :
    handed (run es AppState.initial) ++ (run es AppState.initial).audioQueue = enqueued es ∧
    handed (run (.pollTimer 0 ::
        List.replicate (run es AppState.initial).audioQueue.length (.renderEnded 0))
      (run es AppState.initial)) = enqueued es := by
  obtain ⟨hs, hc⟩ := run_single es AppState.initial he SingleLoop_initial
  have hc2 : handed (run es AppState.initial) ++ (run es AppState.initial).audioQueue
      = enqueued es := by
    rw [hc]; rfl
  refine ⟨hc2, ?_⟩
  generalize run es AppState.initial = s at hs hc2 ⊢
  rw [← hc2, run_cons]
  rcases hs with ⟨_, hl, hq⟩ | ⟨hp, l, hl, hne⟩
  · have : PlaybackEvent.apply (.pollTimer 0) s = s := by
      simp [PlaybackEvent.apply, pollTimer, hl]
    rw [this, hq]
    simp [run_nil]
  · cases l with
    | exited => exact absurd rfl hne
    | rendering y =>
      have : PlaybackEvent.apply (.pollTimer 0) s = s := by
        simp [PlaybackEvent.apply, pollTimer, hl]
      rw [this]
      exact (drain s.audioQueue s y hp hl rfl).1
    | sleeping =>
      have hstep : PlaybackEvent.apply (.pollTimer 0) s = resumeLoop 0 s := by
        simp [PlaybackEvent.apply, pollTimer, hl]
      rw [hstep]
      cases hq : s.audioQueue with
      | nil =>
        obtain ⟨t, l2, h1, h2, _⟩ := resumeLoop_spec 0 s
        rw [hq] at h2
        simp [run_nil, h1, (List.append_eq_nil.mp h2).1]
      | cons x r =>
        obtain ⟨h1, h2, h3, h4⟩ := resumeLoop_head s hp _ hl x r hq
        obtain ⟨h5, h6⟩ := drain r (resumeLoop 0 s) x h1 h2 h3
        rw [List.length_cons, List.replicate_succ', run_append, run_cons, run_nil]
        simp only [PlaybackEvent.apply]
        rw [handed_renderEnded_of_nil 0 _ h6, h5, h4, List.append_assoc]
        rfl

theorem C3_fifo_order_witness :
    noFlush [.initAudioQueue, .addToAudioQueue "QQ==" ⟨24000, none, none, none, none, none⟩,
      .pollTimer 0] = true ∧
    (handed (run [.initAudioQueue,
        .addToAudioQueue "QQ==" ⟨24000, none, none, none, none, none⟩, .pollTimer 0]
          AppState.initial) ++
      (run [.initAudioQueue, .addToAudioQueue "QQ==" ⟨24000, none, none, none, none, none⟩,
        .pollTimer 0] AppState.initial).audioQueue
      = enqueued [.initAudioQueue,
          .addToAudioQueue "QQ==" ⟨24000, none, none, none, none, none⟩, .pollTimer 0] ∧
    handed (run (.pollTimer 0 ::
        List.replicate (run [.initAudioQueue,
          .addToAudioQueue "QQ==" ⟨24000, none, none, none, none, none⟩, .pollTimer 0]
            AppState.initial).audioQueue.length (.renderEnded 0))
      (run [.initAudioQueue, .addToAudioQueue "QQ==" ⟨24000, none, none, none, none, none⟩,
        .pollTimer 0] AppState.initial))
      = enqueued [.initAudioQueue,
          .addToAudioQueue "QQ==" ⟨24000, none, none, none, none, none⟩, .pollTimer 0]) :=
  ⟨by decide, C3_fifo_order _ (by decide)⟩

section Flush

/-- The function `stopDialog` leaves the playback engine and the connection bookkeeping alone. -/
theorem stopDialog_frame (s : AppState) :
    (stopDialog s).audioQueue = s.audioQueue ∧
    (stopDialog s).isAudioPlaying = s.isAudioPlaying ∧
    (stopDialog s).loops = s.loops ∧
    handed (stopDialog s) = handed s ∧
    (stopDialog s).sockets = s.sockets ∧
    (stopDialog s).reconnectTimers = s.reconnectTimers := by
  unfold stopDialog
  cases hw : wsIsOpen { s with isDialogActive := false } <;> cases ha : s.audioStream <;>
    cases hpr : s.processor <;> cases hc : s.audioContext <;>
    simp [hw, ha, hpr, hc, emit, handed, wsIsOpen, List.filterMap_append] at * <;>
    simp [*, emit, List.filterMap_append]

theorem wsClose_frame (s : AppState) :
    (wsClose s).audioQueue = s.audioQueue ∧
    (wsClose s).isAudioPlaying = s.isAudioPlaying ∧
    (wsClose s).loops = s.loops ∧
    handed (wsClose s) = handed s := by
  unfold wsClose
  cases hg : s.sockets.getLast? with
  | none => simp
  | some r => cases r <;> simp [emit, handed, List.filterMap_append]

theorem beforeunload_spec (s : AppState) :
    (beforeunload s).audioQueue = [] ∧ (beforeunload s).isAudioPlaying = false ∧
    (beforeunload s).loops = s.loops ∧ handed (beforeunload s) = handed s := by
  obtain ⟨_, _, b3, b4, _⟩ := stopDialog_frame s
  unfold beforeunload
  cases hd : s.isDialogActive
  · obtain ⟨_, _, a3, a4⟩ := wsClose_frame s
    simp [clearAudioQueue, a3, handed] at *
    exact a4
  · obtain ⟨_, _, a3, a4⟩ := wsClose_frame (stopDialog s)
    simp [clearAudioQueue, a3, b3, handed] at *
    rw [a4, b4]

/-- Whatever the state, an event hands over only payloads that were queued or that the
event itself enqueues, and never reorders them. -/
theorem apply_sublist (e : PlaybackEvent) (s : AppState) :
    ∃ t, handed (e.apply s) = handed s ++ t ∧
      (t ++ (e.apply s).audioQueue).Sublist (s.audioQueue ++ enqueued [e]) := by
  cases e with
  | initAudioQueue =>
    rcases initAudioQueue_spec s with ⟨_, h1, h2, _⟩ | ⟨_, t, l, h1, h2, _⟩
    · exact ⟨[], by simpa using h1, by simp [PlaybackEvent.apply, h2, enqueued]⟩
    · exact ⟨t, h1, by simp [PlaybackEvent.apply, h2, enqueued]⟩
  | addToAudioQueue audioData config =>
    rcases addToAudioQueue_spec audioData config s with ⟨_, h1, h2, _⟩ | ⟨_, t, l, h1, h2, _⟩
    · exact ⟨[], by simpa using h1, by simp [PlaybackEvent.apply, h2, enqueued]⟩
    · exact ⟨t, h1, by simp [PlaybackEvent.apply, h2, enqueued]⟩
  | clearAudioQueue =>
    exact ⟨[], by simp [PlaybackEvent.apply, clearAudioQueue, handed],
      by simp [PlaybackEvent.apply, clearAudioQueue]⟩
  | beforeunload =>
    obtain ⟨h1, _, _, h4⟩ := beforeunload_spec s
    exact ⟨[], by simpa [PlaybackEvent.apply] using h4, by simp [PlaybackEvent.apply, h1]⟩
  | renderEnded i =>
    simp only [PlaybackEvent.apply, renderEnded]
    split
    · obtain ⟨t, l, h1, h2, _⟩ := resumeLoop_spec i s
      exact ⟨t, h1, by simp [h2, enqueued]⟩
    · exact ⟨[], by simp, by simp [enqueued]⟩
  | pollTimer i =>
    simp only [PlaybackEvent.apply, pollTimer]
    split
    · obtain ⟨t, l, h1, h2, _⟩ := resumeLoop_spec i s
      exact ⟨t, h1, by simp [h2, enqueued]⟩
    · exact ⟨[], by simp, by simp [enqueued]⟩

theorem run_sublist (es : List PlaybackEvent) (s : AppState) :
    ∃ t, handed (run es s) = handed s ++ t ∧
      (t ++ (run es s).audioQueue).Sublist (s.audioQueue ++ enqueued es) := by
  induction es generalizing s with
  | nil => exact ⟨[], by simp [run_nil], by simp [run_nil, enqueued]⟩
  | cons e es ih =>
    obtain ⟨t1, h1, h2⟩ := apply_sublist e s
    obtain ⟨t2, h3, h4⟩ := ih (e.apply s)
    refine ⟨t1 ++ t2, by rw [run_cons, h3, h1, List.append_assoc], ?_⟩
    rw [run_cons, enqueued_cons, List.append_assoc t1, ← List.append_assoc s.audioQueue]
    exact ((List.Sublist.refl t1).append h4).trans
      (by rw [← List.append_assoc]; exact h2.append (List.Sublist.refl _))

/-- Enqueueing while the flag is set only appends to the queue. -/
theorem run_adds (items : List QueueItem) :
    ∀ s : AppState, s.isAudioPlaying = true →
      (run (items.map fun q => .addToAudioQueue q.audioData q.config) s).isAudioPlaying = true ∧
      (run (items.map fun q => .addToAudioQueue q.audioData q.config) s).loops = s.loops ∧
      (run (items.map fun q => .addToAudioQueue q.audioData q.config) s).audioQueue
        = s.audioQueue ++ items ∧
      handed (run (items.map fun q => .addToAudioQueue q.audioData q.config) s) = handed s := by
  induction items with
  | nil => intro s hp; simp [run_nil, hp]
  | cons q qs ih =>
    intro s hp
    rcases addToAudioQueue_spec q.audioData q.config s with ⟨_, h1, h2, h3, h4⟩ | ⟨hf, _⟩
    · obtain ⟨i1, i2, i3, i4⟩ := ih (addToAudioQueue q.audioData q.config s) h3
      rw [List.map_cons, run_cons]
      simp only [PlaybackEvent.apply]
      exact ⟨i1, by rw [i2, h4], by rw [i3, h2, List.append_assoc]; rfl, by rw [i4, h1]⟩
    · rw [hf] at hp; exact Bool.noConfusion hp

end Flush

/-- C5: with `P1` rendering and any payloads queued, `clearAudioQueue` empties the queue
and touches neither the suspended loop nor the trace of platform calls (the render of `P1`
is not stopped); whatever happens afterwards, the payloads handed to `playAudioFromQueue`
after the flush are a subsequence of those enqueued after it, so none of the discarded
ones is among them; and payloads enqueued after the flush are handed over, in order, as the
renders complete. -/
theorem C5_flush (s : AppState) (P1 : QueueItem) (hp : s.isAudioPlaying = true)
    (hl : s.loops = [.rendering P1]) :
    (clearAudioQueue s).audioQueue = [] ∧
    (clearAudioQueue s).loops = [.rendering P1] ∧
    (clearAudioQueue s).log = s.log ∧
    (∀ es : List PlaybackEvent, ∃ t,
      handed (run es (clearAudioQueue s)) = handed s ++ t ∧ t.Sublist (enqueued es)) ∧
    (∀ items : List QueueItem,
      handed (run ((items.map fun q => .addToAudioQueue q.audioData q.config) ++
        List.replicate items.length (.renderEnded 0)) (clearAudioQueue s))
        = handed s ++ items) := by
  refine ⟨rfl, hl, rfl, ?_, ?_⟩
  · intro es
    obtain ⟨t, h1, h2⟩ := run_sublist es (clearAudioQueue s)
    refine ⟨t, h1, ?_⟩
    have h3 : (clearAudioQueue s).audioQueue = [] := rfl
    rw [h3, List.nil_append] at h2
    exact (List.sublist_append_left t _).trans h2
  · intro items
    obtain ⟨a1, a2, a3, a4⟩ := run_adds items (clearAudioQueue s) hp
    have a3b : (run (items.map fun q => .addToAudioQueue q.audioData q.config)
        (clearAudioQueue s)).audioQueue = items := by
      rw [a3]; rfl
    rw [run_append]
    have hd := (drain items _ P1 a1 (by rw [a2]; exact hl) a3b).1
    rw [hd, a4]
    rfl


/-- C4: after the teardown handler has cleared the flag, the next `addToAudioQueue` starts a
second invocation of `processAudioQueue` while the first is still waiting on its render:
two payloads are rendering at once, and both invocations stay live afterwards. -/
theorem C4_second_loop_after_teardown :
    rendering (run [.initAudioQueue, .addToAudioQueue "QQ==" bareConfig, .pollTimer 0,
        .beforeunload, .addToAudioQueue "Qg==" bareConfig] AppState.initial)
      = [⟨"QQ==", bareConfig⟩, ⟨"Qg==", bareConfig⟩] ∧
    (liveLoops (run [.initAudioQueue, .addToAudioQueue "QQ==" bareConfig, .pollTimer 0,
        .beforeunload, .addToAudioQueue "Qg==" bareConfig, .renderEnded 0]
        AppState.initial)).length = 2 := by
  decide

/-- C6: on the container path, when decoding succeeds and `source.start(0)` throws inside
the success callback, the completion signal is never invoked; the float32 path, given
the same fault, invokes it once from its `catch`. -/
theorem C6_decoded_start_throws_no_signal :
    (playAudioFromQueue ⟨"QQ==", bareConfig⟩ true (some .start)).signals = 0 ∧
    (playAudioFromQueue ⟨"QQ==", float32Config⟩ true (some .start)).signals = 1 := by
  decide

theorem C5_flush_witness :
    flushExample.isAudioPlaying = true ∧
    flushExample.loops = [.rendering ⟨"QQ==", bareConfig⟩] ∧
    flushExample.audioQueue = [⟨"Qg==", bareConfig⟩, ⟨"Qw==", bareConfig⟩] ∧
    ((clearAudioQueue flushExample).audioQueue = [] ∧
      (clearAudioQueue flushExample).loops = [.rendering ⟨"QQ==", bareConfig⟩] ∧
      (clearAudioQueue flushExample).log = flushExample.log ∧
      (∀ es : List PlaybackEvent, ∃ t,
        handed (run es (clearAudioQueue flushExample)) = handed flushExample ++ t ∧
          t.Sublist (enqueued es)) ∧
      (∀ items : List QueueItem,
        handed (run ((items.map fun q => .addToAudioQueue q.audioData q.config) ++
          List.replicate items.length (.renderEnded 0)) (clearAudioQueue flushExample))
          = handed flushExample ++ items)) :=
  ⟨by decide, by decide, by decide,
    C5_flush flushExample ⟨"QQ==", bareConfig⟩ (by decide) (by decide)⟩

section Transcript

theorem setLastAssistant_append (content : Option String) (e : TranscriptEntry)
    (he : e.role = Role.assistant) (t : List TranscriptEntry) :
    setLastAssistant content (t ++ [e]) = some (t ++ [{ e with content := content }]) := by
  induction t with
  | nil => simp [setLastAssistant, he]
  | cons x xs ih => simp [setLastAssistant, ih]

end Transcript

/-- C7: from any transcript, an `assistant_message` followed by two
`assistant_message_update` messages leaves the old entries as they were and adds exactly
one entry, of role assistant, whose content is the text of the last update. -/
theorem C7_assistant_streaming (s : Web.AppState) (m u1 u2 : Web.ServerMessage)
    (hm : m.type = some "assistant_message")
    (h1 : u1.type = some "assistant_message_update")
    (h2 : u2.type = some "assistant_message_update") :
    (Web.handleServerMessage u2 (Web.handleServerMessage u1
        (Web.handleServerMessage m s))).transcript
      = s.transcript ++ [⟨m.message, u2.text, Role.assistant⟩] := by
  have e0 : Web.handleServerMessage m s = addMessage m.message m.text Role.assistant s := by
    simp [Web.handleServerMessage, hm]
  have eu : ∀ (u : Web.ServerMessage) (st : Web.AppState),
      u.type = some "assistant_message_update" →
      Web.handleServerMessage u st = updateLastAssistantMessage u.message u.text st := by
    intro u st hu
    simp [Web.handleServerMessage, hu]
  rw [e0, eu u1 _ h1, eu u2 _ h2]
  simp [updateLastAssistantMessage, addMessage, setLastAssistant_append]

theorem C7_assistant_streaming_witness :
    (Web.handleServerMessage
        { type := some "assistant_message_update", message := some "豆包", text := some "你好，世界" }
      (Web.handleServerMessage
        { type := some "assistant_message_update", message := some "豆包", text := some "你好" }
      (Web.handleServerMessage
        { type := some "assistant_message", message := some "豆包", text := some "你" }
        Web.AppState.initial))).transcript
      = Web.AppState.initial.transcript ++ [⟨some "豆包", some "你好，世界", Role.assistant⟩] :=
  C7_assistant_streaming Web.AppState.initial _ _ _ rfl rfl rfl

/-- C8 (as stated, refuted): a message of unknown type whose `text` is the empty string
has a text field, yet `handleServerMessage` appends nothing; and the second
implementation has no fallback at all, so even `text: "hello"` adds no entry there. -/
theorem C8_fallback_counterexample :
    (Web.handleServerMessage { type := some "unexpected_type", text := some "" }
        Web.AppState.initial).transcript = Web.AppState.initial.transcript ∧
    (Goodluck.handleServerMessage { type := some "unexpected_type", text := some "hello" }
        Goodluck.AppState.initial).1.transcript = Goodluck.AppState.initial.transcript := by
  decide

/-- C8 (amended): in `web/static/app.js` a message whose type has no `case` of its own
appends exactly one system entry with sender `未知` and the message's text as content
when that text is truthy, changes nothing else, and changes nothing at all when the text
is absent or empty; in `webGoodluck/static/app.js` a message whose `type` and
`message_type` have no `case` leaves the state as it was and throws nothing. -/
theorem C8_fallback_amended (data : Web.ServerMessage) (s : Web.AppState)
    (ht : ∀ t ∈ Web.recognisedTypes, data.type ≠ some t)
    (gdata : Goodluck.ServerMessage) (g : Goodluck.AppState)
    (hg : ∀ t ∈ Goodluck.recognisedTypes, gdata.type ≠ some t)
    (hm : ∀ t ∈ Goodluck.recognisedMessageTypes, gdata.message_type ≠ some t) :
    Web.handleServerMessage data s
      = (if truthy data.text then
          { s with transcript := s.transcript ++ [⟨some "未知", data.text, Role.system⟩] }
        else s) ∧
    Goodluck.handleServerMessage gdata g = (g, false) := by
  constructor
  · simp only [Web.recognisedTypes, List.mem_cons, List.mem_singleton, forall_eq_or_imp,
      forall_eq, List.not_mem_nil, false_implies, implies_true, and_true] at ht
    obtain ⟨h1, h2, h3, h4, h5, h6, h7, h8, h9, h10⟩ := ht
    simp only [Web.handleServerMessage, h1, h2, h3, h4, h5, h6, h7, h8, h9, h10, if_false,
      Web.addMessage]
  · simp only [Goodluck.recognisedTypes, Goodluck.recognisedMessageTypes, List.mem_cons,
      List.mem_singleton, forall_eq_or_imp, forall_eq, List.not_mem_nil, false_implies,
      implies_true, and_true] at hg hm
    obtain ⟨h1, h2, h3, h4, h5, h6⟩ := hg
    obtain ⟨m1, m2, m3⟩ := hm
    simp only [Goodluck.handleServerMessage, Goodluck.switchType, Goodluck.switchMessageType,
      h1, h2, h3, h4, h5, h6, m1, m2, m3, if_false]

theorem C8_fallback_amended_witness :
    (∀ t ∈ Web.recognisedTypes,
      ({ type := some "unexpected_type", text := some "hello" } : Web.ServerMessage).type
        ≠ some t) ∧
    (∀ t ∈ Goodluck.recognisedTypes,
      ({ type := some "unexpected_type", text := some "hello" } : Goodluck.ServerMessage).type
        ≠ some t) ∧
    (∀ t ∈ Goodluck.recognisedMessageTypes,
      ({ type := some "unexpected_type", text := some "hello" }
        : Goodluck.ServerMessage).message_type ≠ some t) ∧
    (Web.handleServerMessage { type := some "unexpected_type", text := some "hello" }
        Web.AppState.initial
      = (if truthy
            ({ type := some "unexpected_type", text := some "hello" } : Web.ServerMessage).text
          then
          { Web.AppState.initial with
            transcript := Web.AppState.initial.transcript ++
              [⟨some "未知",
                ({ type := some "unexpected_type", text := some "hello" }
                  : Web.ServerMessage).text, Role.system⟩] }
        else Web.AppState.initial) ∧
      Goodluck.handleServerMessage { type := some "unexpected_type", text := some "hello" }
        Goodluck.AppState.initial = (Goodluck.AppState.initial, false)) :=
  ⟨by decide, by decide, by decide,
    C8_fallback_amended _ Web.AppState.initial (by decide) _ Goodluck.AppState.initial
      (by decide) (by decide)⟩

section Reconnect

theorem OneChain_of_eq {s t : Goodluck.AppState} (h1 : t.sockets = s.sockets)
    (h2 : t.reconnectTimers = s.reconnectTimers) (h : Goodluck.OneChain s) :
    Goodluck.OneChain t := by
  unfold Goodluck.OneChain at *
  rw [h1, h2]
  exact h

/-- Overwriting a socket that is not closed with a state that is not closed either keeps
the set of positions that hold a socket not yet closed. -/
theorem set_keeps_open (l : List ReadyState) (i : ℕ) (r a : ReadyState)
    (hi : l[i]? = some r) (hr : r ≠ ReadyState.CLOSED) (k : ℕ) (rk : ReadyState)
    (hk : (l.set i a)[k]? = some rk) :
    rk ≠ ReadyState.CLOSED → ∃ q, l[k]? = some q ∧ q ≠ ReadyState.CLOSED := by
  intro hne
  by_cases hik : i = k
  · subst hik
    exact ⟨r, hi, hr⟩
  · rw [List.getElem?_set_ne hik] at hk
    exact ⟨rk, hk, hne⟩

theorem OneChain_set_open (s : Goodluck.AppState) (i : ℕ) (r a : ReadyState)
    (hi : s.sockets[i]? = some r) (hr : r ≠ ReadyState.CLOSED) (h : Goodluck.OneChain s)
    (t : Goodluck.AppState) (h1 : t.sockets = s.sockets.set i a)
    (h2 : t.reconnectTimers = s.reconnectTimers) : Goodluck.OneChain t := by
  rcases h with ⟨ht, hu⟩ | ⟨_, hall⟩
  · left
    refine ⟨by rw [h2, ht], ?_⟩
    intro i1 j1 ri rj hi1 hri hj1 hrj
    rw [h1, List.get?_eq_getElem?] at hi1 hj1
    obtain ⟨q1, hq1, hq1n⟩ := set_keeps_open _ i r a hi hr i1 ri hi1 hri
    obtain ⟨q2, hq2, hq2n⟩ := set_keeps_open _ i r a hi hr j1 rj hj1 hrj
    exact hu i1 j1 q1 q2 (by simpa using hq1) hq1n (by simpa using hq2) hq2n
  · exact absurd (hall r (List.mem_iff_getElem?.mpr ⟨i, hi⟩)) hr

theorem OneChain_wsOpenEvent (i : ℕ) (s : Goodluck.AppState) (h : Goodluck.OneChain s) :
    Goodluck.OneChain (Goodluck.wsOpenEvent i s) := by
  unfold Goodluck.wsOpenEvent
  split
  · next hc =>
    exact OneChain_set_open s i ReadyState.CONNECTING ReadyState.OPEN (by simpa using hc)
      (by decide) h _ rfl rfl
  · exact h

/-- A close event always schedules one timer of 3000 ms, whatever the state. -/
theorem Goodluck_wsCloseEvent_timers (i : ℕ) (s : Goodluck.AppState) (r : ReadyState)
    (hi : s.sockets.get? i = some r) (hr : r ≠ ReadyState.CLOSED) :
    (Goodluck.wsCloseEvent i s).reconnectTimers = s.reconnectTimers ++ [3000] ∧
    (Goodluck.wsCloseEvent i s).sockets = s.sockets.set i ReadyState.CLOSED ∧
    (Goodluck.wsCloseEvent i s).log = s.log ++ [.setTimeout 3000] := by
  unfold Goodluck.wsCloseEvent
  rw [hi]
  simp [hr, Goodluck.onclose, Goodluck.updateStatus, Goodluck.emit]

theorem OneChain_wsCloseEvent (i : ℕ) (s : Goodluck.AppState) (h : Goodluck.OneChain s) :
    Goodluck.OneChain (Goodluck.wsCloseEvent i s) := by
  cases hi : s.sockets.get? i with
  | none =>
    have : Goodluck.wsCloseEvent i s = s := by unfold Goodluck.wsCloseEvent; rw [hi]
    rw [this]; exact h
  | some r =>
    by_cases hr : r = ReadyState.CLOSED
    · have : Goodluck.wsCloseEvent i s = s := by
        unfold Goodluck.wsCloseEvent; rw [hi]; simp [hr]
      rw [this]; exact h
    · obtain ⟨e1, e2, _⟩ := Goodluck_wsCloseEvent_timers i s r hi hr
      rw [List.get?_eq_getElem?] at hi
      rcases h with ⟨ht, hu⟩ | ⟨_, hall⟩
      · right
        refine ⟨⟨3000, by rw [e1, ht]; rfl⟩, ?_⟩
        intro q hq
        rw [e2] at hq
        obtain ⟨k, hk⟩ := List.mem_iff_getElem?.mp hq
        by_cases hik : i = k
        · subst hik
          rw [List.getElem?_set] at hk
          simp only [if_true] at hk
          split at hk
          · exact (Option.some.inj hk).symm
          · exact absurd hk (by simp)
        · rw [List.getElem?_set_ne hik] at hk
          by_contra hne
          exact hik (hu i k r q (by simpa using hi) hr (by simpa using hk) hne)
      · exact absurd (hall r (List.mem_iff_getElem?.mpr ⟨i, hi⟩)) hr

theorem reconnectTimerFires_of_closed (s : Goodluck.AppState) (d : ℕ) (rest : List ℕ)
    (ht : s.reconnectTimers = d :: rest) (hall : ∀ r ∈ s.sockets, r = ReadyState.CLOSED) :
    Goodluck.reconnectTimerFires s
      = Goodluck.initializeWebSocket { s with reconnectTimers := rest } := by
  unfold Goodluck.reconnectTimerFires
  rw [ht]
  simp only []
  cases hl : s.sockets.getLast? with
  | none => rfl
  | some r =>
    have := hall r (List.mem_of_getLast?_eq_some hl)
    subst this
    simp

theorem OneChain_reconnectTimerFires (s : Goodluck.AppState) (h : Goodluck.OneChain s) :
    Goodluck.OneChain (Goodluck.reconnectTimerFires s) := by
  rcases h with ⟨ht, hu⟩ | ⟨⟨d, ht⟩, hall⟩
  · have : Goodluck.reconnectTimerFires s = s := by simp [Goodluck.reconnectTimerFires, ht]
    rw [this]
    exact Or.inl ⟨ht, hu⟩
  · rw [reconnectTimerFires_of_closed s d [] ht hall]
    left
    refine ⟨by simp [Goodluck.initializeWebSocket, Goodluck.emit], ?_⟩
    have key : ∀ k rk,
        (s.sockets ++ [ReadyState.CONNECTING])[k]? = some rk → rk ≠ ReadyState.CLOSED →
          k = s.sockets.length := by
      intro k rk hk hne
      by_contra hkl
      rcases Nat.lt_or_gt_of_ne hkl with hlt | hgt
      · rw [List.getElem?_append_left hlt] at hk
        exact hne (hall rk (List.mem_iff_getElem?.mpr ⟨k, hk⟩))
      · rw [List.getElem?_append_right (by omega)] at hk
        have : k - s.sockets.length ≠ 0 := by omega
        cases hm : k - s.sockets.length with
        | zero => exact this hm
        | succ n => rw [hm] at hk; simp at hk
    intro i j ri rj hi hri hj hrj
    have hi2 : (s.sockets ++ [ReadyState.CONNECTING])[i]? = some ri := by
      simpa [Goodluck.initializeWebSocket, Goodluck.emit] using hi
    have hj2 : (s.sockets ++ [ReadyState.CONNECTING])[j]? = some rj := by
      simpa [Goodluck.initializeWebSocket, Goodluck.emit] using hj
    rw [key i ri hi2 hri, key j rj hj2 hrj]

theorem OneChain_beforeunload (s : Goodluck.AppState) (h : Goodluck.OneChain s) :
    Goodluck.OneChain (Goodluck.beforeunload s) := by
  unfold Goodluck.beforeunload
  cases hl : s.sockets.getLast? with
  | none => exact h
  | some r =>
    simp only []
    split
    · next hr =>
      have hi : s.sockets[s.sockets.length - 1]? = some r := by
        rw [← List.getLast?_eq_getElem?]; exact hl
      have hne : r ≠ ReadyState.CLOSED := by
        rcases hr with hr | hr <;> rw [hr] <;> decide
      exact OneChain_set_open s _ r ReadyState.CLOSING hi hne h _ rfl rfl
    · exact OneChain_of_eq rfl rfl h

/-- The functions that do not touch the sockets or the timers. -/
theorem updateAssistantMessage_connection (t : Option String) (x : Goodluck.AppState) :
    (Goodluck.updateAssistantMessage t x).sockets = x.sockets ∧
    (Goodluck.updateAssistantMessage t x).reconnectTimers = x.reconnectTimers := by
  unfold Goodluck.updateAssistantMessage
  split
  · split
    · exact ⟨rfl, rfl⟩
    · exact ⟨rfl, rfl⟩
  · exact ⟨rfl, rfl⟩

theorem clearDialog_connection (x : Goodluck.AppState) :
    (Goodluck.clearDialog x).sockets = x.sockets ∧
    (Goodluck.clearDialog x).reconnectTimers = x.reconnectTimers := by
  unfold Goodluck.clearDialog
  simp only []
  split
  · exact ⟨rfl, rfl⟩
  · exact ⟨rfl, rfl⟩

theorem playQueue_connection (x : Goodluck.AppState) :
    (Goodluck.playQueue x).sockets = x.sockets ∧
    (Goodluck.playQueue x).reconnectTimers = x.reconnectTimers := by
  unfold Goodluck.playQueue
  split
  · exact ⟨rfl, rfl⟩
  · exact ⟨rfl, rfl⟩

theorem decodeSettled_connection (ok : Bool) (x : Goodluck.AppState) :
    (Goodluck.decodeSettled ok x).sockets = x.sockets ∧
    (Goodluck.decodeSettled ok x).reconnectTimers = x.reconnectTimers := by
  unfold Goodluck.decodeSettled
  split
  · exact ⟨rfl, rfl⟩
  · simp only []
    split
    · split
      · exact playQueue_connection _
      · exact ⟨rfl, rfl⟩
    · exact ⟨rfl, rfl⟩

theorem switchType_connection (data : Goodluck.ServerMessage) (x : Goodluck.AppState) :
    (Goodluck.switchType data x).sockets = x.sockets ∧
    (Goodluck.switchType data x).reconnectTimers = x.reconnectTimers := by
  unfold Goodluck.switchType
  split_ifs
  · exact ⟨rfl, rfl⟩
  · exact ⟨rfl, rfl⟩
  · exact ⟨rfl, rfl⟩
  · exact updateAssistantMessage_connection _ _
  · exact ⟨rfl, rfl⟩
  · exact clearDialog_connection _
  · exact ⟨rfl, rfl⟩

theorem switchMessageType_connection (data : Goodluck.ServerMessage)
    (x : Goodluck.AppState) :
    (Goodluck.switchMessageType data x).1.sockets = x.sockets ∧
    (Goodluck.switchMessageType data x).1.reconnectTimers = x.reconnectTimers := by
  unfold Goodluck.switchMessageType
  split_ifs
  · split
    · split
      · split
        · exact ⟨rfl, rfl⟩
        · exact ⟨rfl, rfl⟩
      · exact ⟨rfl, rfl⟩
    · exact ⟨rfl, rfl⟩
  · split
    · split
      · exact updateAssistantMessage_connection _ _
      · exact ⟨rfl, rfl⟩
    · exact ⟨rfl, rfl⟩
  · exact ⟨rfl, rfl⟩
  · exact ⟨rfl, rfl⟩

theorem OneChain_apply (e : Goodluck.Event) (s : Goodluck.AppState)
    (h : Goodluck.OneChain s) : Goodluck.OneChain (e.apply s) := by
  cases e with
  | wsOpen i => exact OneChain_wsOpenEvent i s h
  | wsMessage data =>
    obtain ⟨a1, a2⟩ := switchType_connection data s
    obtain ⟨b1, b2⟩ := switchMessageType_connection data (Goodluck.switchType data s)
    exact OneChain_of_eq (b1.trans a1) (b2.trans a2) h
  | wsError => exact OneChain_of_eq rfl rfl h
  | wsClose i => exact OneChain_wsCloseEvent i s h
  | reconnectTimer => exact OneChain_reconnectTimerFires s h
  | decodeSettled ok =>
    obtain ⟨a1, a2⟩ := decodeSettled_connection ok s
    exact OneChain_of_eq a1 a2 h
  | sourceEnded =>
    simp only [Goodluck.Event.apply]
    split
    · obtain ⟨a1, a2⟩ := playQueue_connection s
      exact OneChain_of_eq a1 a2 h
    · exact h
  | beforeunload => exact OneChain_beforeunload s h

theorem OneChain_foldl (es : List Goodluck.Event) :
    ∀ s : Goodluck.AppState, Goodluck.OneChain s →
      Goodluck.OneChain (es.foldl (fun s e => e.apply s) s) := by
  induction es with
  | nil => intro s h; exact h
  | cons e es ih => intro s h; exact ih _ (OneChain_apply e s h)

/-- Every state the second implementation reaches after page load keeps the chain
socket, close, timer, socket. -/
theorem OneChain_run (es : List Goodluck.Event) : Goodluck.OneChain (Goodluck.run es) := by
  apply OneChain_foldl
  left
  refine ⟨rfl, ?_⟩
  intro i j ri rj hi _ hj _
  have hi2 : [ReadyState.CONNECTING][i]? = some ri := by
    simpa [Goodluck.load, Goodluck.initializeWebSocket, Goodluck.emit,
      Goodluck.AppState.initial] using hi
  have hj2 : [ReadyState.CONNECTING][j]? = some rj := by
    simpa [Goodluck.load, Goodluck.initializeWebSocket, Goodluck.emit,
      Goodluck.AppState.initial] using hj
  cases i with
  | zero =>
    cases j with
    | zero => rfl
    | succ n => simp at hj2
  | succ n => simp at hi2

end Reconnect

/-- C9: in both implementations the close event of a socket schedules exactly one
reconnect timer, of 3000 ms, whatever the state (so after any number of failed attempts,
with no counter and no growing delay); in `web/static/app.js` a firing timer always
creates a new socket; in `webGoodluck/static/app.js` the timer callback tests
`!ws || ws.readyState === CLOSED`, and in every state reachable after page load that test
holds when a timer is pending, so there too a firing timer always creates a new socket. -/
theorem C9_reconnect (s : Web.AppState) (i : ℕ) (r : ReadyState)
    (hi : s.sockets.get? i = some r) (hr : r ≠ ReadyState.CLOSED)
    (g : Goodluck.AppState) (j : ℕ) (q : ReadyState)
    (hj : g.sockets.get? j = some q) (hq : q ≠ ReadyState.CLOSED) :
    (Web.wsCloseEvent i s).reconnectTimers = s.reconnectTimers ++ [3000] ∧
    (∀ (t : Web.AppState) (d : ℕ) (rest : List ℕ), t.reconnectTimers = d :: rest →
      (Web.reconnectTimerFires t).sockets = t.sockets ++ [ReadyState.CONNECTING] ∧
      (Web.reconnectTimerFires t).log = t.log ++ [Web.Effect.newWebSocket] ∧
      (Web.reconnectTimerFires t).reconnectTimers = rest) ∧
    (Goodluck.wsCloseEvent j g).reconnectTimers = g.reconnectTimers ++ [3000] ∧
    (∀ (es : List Goodluck.Event) (d : ℕ) (rest : List ℕ),
      (Goodluck.run es).reconnectTimers = d :: rest →
      (Goodluck.reconnectTimerFires (Goodluck.run es)).sockets
        = (Goodluck.run es).sockets ++ [ReadyState.CONNECTING] ∧
      (Goodluck.reconnectTimerFires (Goodluck.run es)).log
        = (Goodluck.run es).log ++ [Goodluck.Effect.newWebSocket] ∧
      (Goodluck.reconnectTimerFires (Goodluck.run es)).reconnectTimers = rest) := by
  refine ⟨?_, ?_, (Goodluck_wsCloseEvent_timers j g q hj hq).1, ?_⟩
  · obtain ⟨_, _, _, _, _, h6⟩ := stopDialog_frame
      (updateStatus (some "连接已断开") { s with sockets := s.sockets.set i ReadyState.CLOSED })
    unfold Web.wsCloseEvent
    rw [hi]
    simp only [hr, if_false, Web.onclose]
    split
    · simp only [emit, h6]; rfl
    · rfl
  · intro t d rest ht
    simp [Web.reconnectTimerFires, ht, Web.initializeWebSocket, emit]
  · intro es d rest ht
    rcases OneChain_run es with ⟨h0, _⟩ | ⟨_, hall⟩
    · rw [h0] at ht; exact absurd ht (by simp)
    · rw [reconnectTimerFires_of_closed _ d rest ht hall]
      exact ⟨rfl, rfl, rfl⟩

theorem C9_reconnect_witness :
    (Web.domContentLoaded Web.AppState.initial).sockets.get? 0 = some ReadyState.CONNECTING ∧
    (Goodluck.load Goodluck.AppState.initial).sockets.get? 0 = some ReadyState.CONNECTING ∧
    ((Web.wsCloseEvent 0 (Web.domContentLoaded Web.AppState.initial)).reconnectTimers
        = (Web.domContentLoaded Web.AppState.initial).reconnectTimers ++ [3000] ∧
      (∀ (t : Web.AppState) (d : ℕ) (rest : List ℕ), t.reconnectTimers = d :: rest →
        (Web.reconnectTimerFires t).sockets = t.sockets ++ [ReadyState.CONNECTING] ∧
        (Web.reconnectTimerFires t).log = t.log ++ [Web.Effect.newWebSocket] ∧
        (Web.reconnectTimerFires t).reconnectTimers = rest) ∧
      (Goodluck.wsCloseEvent 0 (Goodluck.load Goodluck.AppState.initial)).reconnectTimers
        = (Goodluck.load Goodluck.AppState.initial).reconnectTimers ++ [3000] ∧
      (∀ (es : List Goodluck.Event) (d : ℕ) (rest : List ℕ),
        (Goodluck.run es).reconnectTimers = d :: rest →
        (Goodluck.reconnectTimerFires (Goodluck.run es)).sockets
          = (Goodluck.run es).sockets ++ [ReadyState.CONNECTING] ∧
        (Goodluck.reconnectTimerFires (Goodluck.run es)).log
          = (Goodluck.run es).log ++ [Goodluck.Effect.newWebSocket] ∧
        (Goodluck.reconnectTimerFires (Goodluck.run es)).reconnectTimers = rest)) :=
  ⟨by decide, by decide,
    C9_reconnect (Web.domContentLoaded Web.AppState.initial) 0 ReadyState.CONNECTING
      (by decide) (by decide) (Goodluck.load Goodluck.AppState.initial) 0
      ReadyState.CONNECTING (by decide) (by decide)⟩

/-- C10: when the close event of a socket is handled while the session is active, the
handler first runs `stopDialog` and only then schedules the reconnect timer: at the end
`isDialogActive` is false, `audioStream` and `processor` are null and the capture context,
if there was one, has had `close()` called on it; the trace of platform calls shows the
releases (tracks stopped, processor disconnected, context closed) before the one
`setTimeout(.., 3000)`; and the queue, the playing flag, the loop invocations and the
renders started are what they were. -/
theorem C10_teardown_before_reconnect (s : Web.AppState) (i : ℕ) (r : ReadyState)
    (hi : s.sockets.get? i = some r) (hr : r ≠ ReadyState.CLOSED)
    (hd : s.isDialogActive = true) :
    (Web.wsCloseEvent i s).isDialogActive = false ∧
    (Web.wsCloseEvent i s).audioStream = false ∧
    (Web.wsCloseEvent i s).processor = false ∧
    (Web.wsCloseEvent i s).audioContext
      = s.audioContext.map (fun _ => ContextState.closed) ∧
    (Web.wsCloseEvent i s).log
      = s.log ++
        (if (s.sockets.set i ReadyState.CLOSED).getLast? = some ReadyState.OPEN
          then [Web.Effect.send OutMessage.stop_dialog] else []) ++
        (if s.audioStream then [Web.Effect.stopTracks] else []) ++
        (if s.processor then [Web.Effect.processorDisconnect] else []) ++
        (if s.audioContext.isSome then [Web.Effect.audioContextClose] else []) ++
        [Web.Effect.setTimeout 3000] ∧
    (Web.wsCloseEvent i s).audioQueue = s.audioQueue ∧
    (Web.wsCloseEvent i s).isAudioPlaying = s.isAudioPlaying ∧
    (Web.wsCloseEvent i s).loops = s.loops ∧
    handed (Web.wsCloseEvent i s) = handed s := by
  have e : Web.wsCloseEvent i s
      = { emit (.setTimeout 3000) (stopDialog (updateStatus (some "连接已断开")
            { s with sockets := s.sockets.set i ReadyState.CLOSED })) with
          reconnectTimers := (stopDialog (updateStatus (some "连接已断开")
            { s with sockets := s.sockets.set i ReadyState.CLOSED })).reconnectTimers
              ++ [3000] } := by
    unfold Web.wsCloseEvent
    rw [hi]
    simp only [hr, if_false, Web.onclose]
    rw [if_pos (by simpa [updateStatus] using hd)]
  rw [e]
  cases hw : decide ((s.sockets.set i ReadyState.CLOSED).getLast? = some ReadyState.OPEN) <;>
    cases ha : s.audioStream <;> cases hp : s.processor <;> cases hc : s.audioContext <;>
    simp [stopDialog, updateStatus, emit, handed, wsIsOpen, ha, hp, hc,
      List.filterMap_append] at hw ⊢ <;>
    simp [hw]

theorem C10_teardown_before_reconnect_witness :
    (userMediaSettled true (startDialog (wsOpenEvent 0
        (Web.domContentLoaded Web.AppState.initial)))).sockets.get? 0
      = some ReadyState.OPEN ∧
    (userMediaSettled true (startDialog (wsOpenEvent 0
        (Web.domContentLoaded Web.AppState.initial)))).isDialogActive = true ∧
    (Web.wsCloseEvent 0 (userMediaSettled true (startDialog (wsOpenEvent 0
        (Web.domContentLoaded Web.AppState.initial))))).log
      = [.newWebSocket, .send .start_dialog, .getUserMedia, .stopTracks,
          .processorDisconnect, .audioContextClose, .setTimeout 3000] :=
  ⟨by decide, by decide,
    (C10_teardown_before_reconnect _ 0 ReadyState.OPEN (by decide) (by decide)
      (by decide)).2.2.2.2.1.trans (by decide)⟩

section Capture

theorem setInt16_lt (v : ℚ) : ∀ b ∈ setInt16 v, b < 256 := by
  intro b hb
  simp only [setInt16, List.mem_cons, List.mem_singleton, List.not_mem_nil, or_false] at hb
  have h : (truncate v % 65536).toNat < 65536 := by
    have h1 : 0 ≤ truncate v % 65536 := Int.emod_nonneg _ (by norm_num)
    have h2 : truncate v % 65536 < 65536 := Int.emod_lt_of_pos _ (by norm_num)
    omega
  rcases hb with rfl | rfl <;> omega

theorem float32ToPCM16_lt (l : List ℚ) : ∀ b ∈ float32ToPCM16 l, b < 256 := by
  intro b hb
  simp only [float32ToPCM16, List.mem_flatMap] at hb
  obtain ⟨x, _, hx⟩ := hb
  exact setInt16_lt _ b hx

/-- Encoding a buffer of bytes never throws, and the text decodes back to the bytes. -/
theorem arrayBufferToBase64_some (b : List ℕ) (hb : ∀ x ∈ b, x < 256) :
    ∃ t, arrayBufferToBase64 b = some t ∧ base64ToBuffer t = some b := by
  have hfold := foldl_fromCharCode b [] hb
  simp only [List.nil_append] at hfold
  have hround := atob_btoa b hb
  cases hbt : btoa b with
  | none => simp [hbt] at hround
  | some t =>
    rw [hbt] at hround
    simp only [Option.some_bind] at hround
    refine ⟨t, by unfold arrayBufferToBase64; rw [hfold, hbt], ?_⟩
    unfold base64ToBuffer
    rw [hround]
    simp only [Option.map_some', Option.some.injEq]
    exact map_mod_256 b hb

theorem stopDialog_inactive (s : AppState) : (stopDialog s).isDialogActive = false := by
  unfold stopDialog
  cases hw : wsIsOpen { s with isDialogActive := false } <;> cases ha : s.audioStream <;>
    cases hpr : s.processor <;> cases hc : s.audioContext <;>
    simp [hw, ha, hpr, hc, emit, wsIsOpen] at * <;>
    simp [*, emit]

end Capture

/-- C11: for every captured frame the PCM16 bytes always encode to base64 text (which
decodes back to those bytes), and the capture callback leaves the state as it was,
sending nothing, unless the session is active and the socket is open, in which case it
sends exactly one `audio_stream` message carrying that text; after `stopDialog` it sends
nothing. -/
theorem C11_capture_callback (frame : List ℚ) (s : AppState) :
    ∃ base64Audio, arrayBufferToBase64 (float32ToPCM16 frame) = some base64Audio ∧
      base64ToBuffer base64Audio = some (float32ToPCM16 frame) ∧
      onaudioprocess frame s
        = (if s.isDialogActive = true ∧ s.sockets.getLast? = some ReadyState.OPEN then
            { s with log := s.log ++ [.send (.audio_stream base64Audio)] }
          else s) ∧
      onaudioprocess frame (stopDialog s) = stopDialog s := by
  obtain ⟨t, h1, h2⟩ := arrayBufferToBase64_some _ (float32ToPCM16_lt frame)
  refine ⟨t, h1, h2, ?_, ?_⟩
  · unfold onaudioprocess
    rw [h1]
    by_cases ha : s.isDialogActive = true <;>
      by_cases ho : s.sockets.getLast? = some ReadyState.OPEN <;>
      simp [ha, ho, wsIsOpen, emit]
  · unfold onaudioprocess
    rw [stopDialog_inactive]
    simp

section Stop

/-- The session fields after the part of `stopDialog` that runs at once. -/
theorem sessionState_stopDialog (s : AppState) :
    sessionState (stopDialog s)
      = (false, false, false, s.audioContext.map fun _ => ContextState.closed) ∧
    (stopDialog s).pendingClose
      = s.pendingClose ++
        (match s.audioContext with
          | some c => [decide (c = ContextState.running)]
          | none => []) := by
  unfold stopDialog sessionState
  cases hw : wsIsOpen { s with isDialogActive := false } <;> cases ha : s.audioStream <;>
    cases hpr : s.processor <;> cases hc : s.audioContext <;>
    simp [hw, ha, hpr, hc, emit, wsIsOpen] at * <;>
    simp [*, emit]

/-- The whole effect of the part of `stopDialog` that runs at once. -/
theorem stopDialog_eq (s : AppState) :
    stopDialog s
      = { s with
          isDialogActive := false
          audioStream := false
          processor := false
          audioContext := s.audioContext.map fun _ => ContextState.closed
          pendingClose := s.pendingClose ++
            (match s.audioContext with
              | some c => [decide (c = ContextState.running)]
              | none => [])
          log := s.log ++
            (if s.sockets.getLast? = some ReadyState.OPEN then [.send .stop_dialog] else []) ++
            (if s.audioStream then [.stopTracks] else []) ++
            (if s.processor then [.processorDisconnect] else []) ++
            (if s.audioContext.isSome then [.audioContextClose] else []) } := by
  unfold stopDialog
  by_cases hw : s.sockets.getLast? = some ReadyState.OPEN <;> cases ha : s.audioStream <;>
    cases hpr : s.processor <;> cases hc : s.audioContext <;>
    simp [hw, ha, hpr, hc, emit, wsIsOpen]

/-- A call of `stopDialog` on a session that is stopped only sends `stop_dialog`, and
that only when the socket is open. -/
theorem stopDialog_stopped (t : AppState) (h1 : t.isDialogActive = false)
    (h2 : t.audioStream = false) (h3 : t.processor = false) (h4 : t.audioContext = none) :
    stopDialog t
      = (if t.sockets.getLast? = some ReadyState.OPEN then
          { t with log := t.log ++ [.send .stop_dialog] }
        else t) := by
  unfold stopDialog
  have e : { t with isDialogActive := false } = t := by
    cases t
    simp only [AppState.mk.injEq, and_true, true_and] at h1 ⊢
    simpa using h1
  rw [e]
  by_cases ho : t.sockets.getLast? = some ReadyState.OPEN <;>
    simp [ho, wsIsOpen, emit, h2, h3, h4]

end Stop

/-- C12: the part of `stopDialog` that runs at once leaves the same session fields
whether it is called once or twice; for a state with no close pending, once all `close()`
promises have settled, in either order, two calls (back to back, or the second after the
first has finished) leave the same session fields as one; and a call on a session that is
already stopped changes no field of the state, releases nothing and leaves no promise
pending: at most it sends `stop_dialog` again when the socket is open. -/
theorem C12_stopDialog_idempotent (s : AppState) (hp : s.pendingClose = [])
    (t : AppState) (h1 : t.isDialogActive = false) (h2 : t.audioStream = false)
    (h3 : t.processor = false) (h4 : t.audioContext = none) :
    sessionState (stopDialog (stopDialog s)) = sessionState (stopDialog s) ∧
    sessionState (closeSettledAt 0 (closeSettledAt 0 (stopDialog (stopDialog s))))
      = sessionState (closeSettledAt 0 (stopDialog s)) ∧
    sessionState (closeSettledAt 0 (closeSettledAt 1 (stopDialog (stopDialog s))))
      = sessionState (closeSettledAt 0 (stopDialog s)) ∧
    sessionState (closeSettledAt 0 (stopDialog (closeSettledAt 0 (stopDialog s))))
      = sessionState (closeSettledAt 0 (stopDialog s)) ∧
    stopDialog t
      = (if t.sockets.getLast? = some ReadyState.OPEN then
          { t with log := t.log ++ [.send .stop_dialog] }
        else t) := by
  refine ⟨?_, ?_, ?_, ?_, stopDialog_stopped t h1 h2 h3 h4⟩
  · obtain ⟨a, _⟩ := sessionState_stopDialog (stopDialog s)
    obtain ⟨b, _⟩ := sessionState_stopDialog s
    have hc : (stopDialog s).audioContext = s.audioContext.map fun _ => ContextState.closed :=
      congrArg (fun p => p.2.2.2) b
    rw [a, b, hc]
    cases s.audioContext <;> rfl
  all_goals
    rcases hc : s.audioContext with _ | c
    · simp [closeSettledAt, sessionState, hp, hc, stopDialog_eq]
    · cases c <;> simp [closeSettledAt, sessionState, hp, hc, stopDialog_eq]

theorem C12_stopDialog_idempotent_witness :
    activeExample.pendingClose = [] ∧
    AppState.initial.isDialogActive = false ∧ AppState.initial.audioStream = false ∧
    AppState.initial.processor = false ∧ AppState.initial.audioContext = none ∧
    sessionState (closeSettledAt 0 (closeSettledAt 1 (stopDialog (stopDialog activeExample))))
      = (false, false, false, none) ∧
    sessionState (closeSettledAt 0 (stopDialog activeExample)) = (false, false, false, none) ∧
    stopDialog AppState.initial = AppState.initial :=
  ⟨by decide, by decide, by decide, by decide, by decide,
    (C12_stopDialog_idempotent activeExample (by decide) AppState.initial (by decide)
      (by decide) (by decide) (by decide)).2.2.1.trans (by decide),
    by decide,
    (C12_stopDialog_idempotent activeExample (by decide) AppState.initial (by decide)
      (by decide) (by decide) (by decide)).2.2.2.2.trans (by decide)⟩

section SecondEncoder

theorem truncate_intCast (n : ℤ) : truncate (n : ℚ) = n := by
  unfold truncate
  split
  · exact Int.floor_intCast n
  · exact Int.ceil_intCast n

theorem clampSample_neg_one : clampSample (-1) = -1 := by
  unfold clampSample
  rw [min_eq_right (by norm_num), max_eq_left (by norm_num)]

theorem pcmValue_neg_one : Goodluck.pcmValue (-1) = -32767 := by
  unfold Goodluck.pcmValue
  rw [clampSample_neg_one]
  have : ((-1 : ℚ) * 0x7FFF) = ((-32767 : ℤ) : ℚ) := by norm_num
  rw [this, truncate_intCast]

theorem quantize_neg_one : quantize (-1) = -32768 := by
  unfold quantize
  simp only [clampSample_neg_one]
  rw [if_pos (by norm_num)]
  have : ((-1 : ℚ) * 0x8000) = ((-32768 : ℤ) : ℚ) := by norm_num
  rw [this, truncate_intCast]

theorem pcmValue_bounds (x : ℚ) :
    -32767 ≤ Goodluck.pcmValue x ∧ Goodluck.pcmValue x ≤ 32767 := by
  obtain ⟨h1, h2⟩ := clampSample_bounds x
  unfold Goodluck.pcmValue
  constructor
  · apply le_truncate; push_cast; linarith
  · apply truncate_le; push_cast; linarith

theorem int16Values_convertAudioBufferToPCM (l : List ℚ) :
    int16Values (Goodluck.convertAudioBufferToPCM l) = l.map Goodluck.pcmValue := by
  induction l with
  | nil => rfl
  | cons x xs ih =>
    obtain ⟨h1, h2⟩ := pcmValue_bounds x
    have hq := getInt16_setInt16 (Goodluck.pcmValue x) (by omega) h2
    have hc : Goodluck.convertAudioBufferToPCM (x :: xs)
        = (Goodluck.pcmValue x % 65536).toNat % 256
            :: (Goodluck.pcmValue x % 65536).toNat / 256
            :: Goodluck.convertAudioBufferToPCM xs := rfl
    rw [hc, int16Values, hq, ih, List.map_cons]

theorem int16Values_float32ToPCM16 (l : List ℚ) :
    int16Values (float32ToPCM16 l) = l.map quantize := by
  induction l with
  | nil => rfl
  | cons x xs ih =>
    obtain ⟨h1, h2⟩ := quantize_bounds x
    have hq := getInt16_setInt16 (quantize x) h1 h2
    have hc : float32ToPCM16 (x :: xs)
        = (quantize x % 65536).toNat % 256 :: (quantize x % 65536).toNat / 256
            :: float32ToPCM16 xs := rfl
    rw [hc, int16Values, hq, ih, List.map_cons]

theorem pcmValue_eq_quantize_of_nonneg (x : ℚ) (hx : 0 ≤ x) :
    Goodluck.pcmValue x = quantize x := by
  have hc : ¬ clampSample x < 0 := by
    unfold clampSample
    have : 0 ≤ min 1 x := le_min (by norm_num) hx
    have : 0 ≤ max (-1) (min 1 x) := le_max_of_le_right this
    linarith
  unfold Goodluck.pcmValue quantize
  simp only [if_neg hc]

theorem truncate_mono {a b : ℚ} (h : a ≤ b) : truncate a ≤ truncate b := by
  unfold truncate
  split
  · rw [if_pos (le_trans ‹0 ≤ a› h)]
    exact Int.floor_le_floor h
  · split
    · have h1 : ⌈a⌉ ≤ 0 := Int.ceil_le.mpr (by push_cast; linarith)
      have h2 : 0 ≤ ⌊b⌋ := Int.floor_nonneg.mpr ‹0 ≤ b›
      omega
    · exact Int.ceil_le_ceil h

theorem pcmValue_near_quantize (x : ℚ) :
    quantize x ≤ Goodluck.pcmValue x ∧ Goodluck.pcmValue x ≤ quantize x + 1 := by
  obtain ⟨h1, h2⟩ := clampSample_bounds x
  by_cases hc : clampSample x < 0
  · unfold Goodluck.pcmValue quantize
    simp only [if_pos hc]
    constructor
    · exact truncate_mono (by linarith)
    · have hneg1 : ¬ (0 : ℚ) ≤ clampSample x * 0x7FFF := by
        intro h; linarith
      have hneg2 : ¬ (0 : ℚ) ≤ clampSample x * 0x8000 := by
        intro h; linarith
      unfold truncate
      rw [if_neg hneg1, if_neg hneg2]
      have := Int.le_ceil (clampSample x * 0x8000)
      apply Int.ceil_le.mpr
      push_cast
      linarith
  · unfold Goodluck.pcmValue quantize
    simp only [if_neg hc]
    omega

end SecondEncoder

/-- C13 (as stated, refuted): for the sample -1 `convertAudioBufferToPCM` stores -32767
(bytes 01 80), where `float32ToPCM16` stores -32768 (bytes 00 80). -/
theorem C13_second_encoder_counterexample :
    int16Values (Goodluck.convertAudioBufferToPCM [-1]) = [-32767] ∧
    int16Values (float32ToPCM16 [-1]) = [-32768] ∧
    Goodluck.convertAudioBufferToPCM [-1] ≠ float32ToPCM16 [-1] := by
  have h1 : int16Values (Goodluck.convertAudioBufferToPCM [-1]) = [-32767] := by
    rw [int16Values_convertAudioBufferToPCM, List.map_singleton, pcmValue_neg_one]
  have h2 : int16Values (float32ToPCM16 [-1]) = [-32768] := by
    rw [int16Values_float32ToPCM16, List.map_singleton, quantize_neg_one]
  refine ⟨h1, h2, ?_⟩
  intro h
  rw [h, h2] at h1
  exact absurd h1 (by decide)

/-- C13 (amended): `convertAudioBufferToPCM` clamps every sample to [-1, 1] and scales it
by 0x7FFF whatever its sign: the 16-bit values it stores are `trunc(clamp(x) * 0x7FFF)`.
For a non-negative sample that is the value `float32ToPCM16` stores; for any sample it
is that value or the next one up; and -1 encodes to -32767. -/
theorem C13_second_encoder_amended (channelData : List ℚ) :
    int16Values (Goodluck.convertAudioBufferToPCM channelData)
      = channelData.map (fun x => truncate (clampSample x * 0x7FFF)) ∧
    int16Values (float32ToPCM16 channelData) = channelData.map quantize ∧
    (∀ x ∈ channelData, 0 ≤ x → truncate (clampSample x * 0x7FFF) = quantize x) ∧
    (∀ x ∈ channelData, quantize x ≤ truncate (clampSample x * 0x7FFF) ∧
      truncate (clampSample x * 0x7FFF) ≤ quantize x + 1) ∧
    truncate (clampSample (-1) * 0x7FFF) = -32767 :=
  ⟨int16Values_convertAudioBufferToPCM channelData, int16Values_float32ToPCM16 channelData,
    fun x _ hx => pcmValue_eq_quantize_of_nonneg x hx,
    fun x _ => pcmValue_near_quantize x, pcmValue_neg_one⟩

/-- C14: an `audio_stream` message without format fields is queued (and handed over at
once, the loop being started by the enqueue) with a descriptor whose `format` and
`channels` are undefined, the spread of `audioConfig` having overwritten the defaults,
and whose `audio_format` is undefined; `playAudioFromQueue` tests `audio_format`, so the
payload goes to the container decoder: when that decoder rejects the bytes the payload is
dropped without a source ever being started, where the float32 path would have started
one. -/
theorem C14_default_format_not_applied :
    handed (Web.handleServerMessage bareAudioMessage AppState.initial)
      = [⟨"AAAAAA==", ⟨24000, none, none, none, none, none⟩⟩] ∧
    (handed (Web.handleServerMessage bareAudioMessage AppState.initial)).map
      (fun item => item.config.format) = [none] ∧
    (handed (Web.handleServerMessage bareAudioMessage AppState.initial)).map
      (fun item => item.config.channels) = [none] ∧
    playAudioFromQueue ⟨"AAAAAA==", ⟨24000, none, none, none, none, none⟩⟩ false none
      = playPCM16AudioFromQueue false none ⟨0, false, false⟩ ∧
    playAudioFromQueue ⟨"AAAAAA==", ⟨24000, none, none, none, none, none⟩⟩ false none
      = ⟨1, false, false⟩ ∧
    playFloat32AudioFromQueue none ⟨0, false, false⟩ = ⟨0, true, true⟩ := by
  decide

section Stranded

theorem liveLoops_ne_nil_of_mem (s : AppState) (l : LoopState) (hl : l ∈ s.loops)
    (hne : l ≠ LoopState.exited) : liveLoops s ≠ [] := by
  intro h
  have hm : l ∈ liveLoops s := by
    unfold liveLoops
    rw [List.mem_filter]
    exact ⟨hl, by simpa using hne⟩
  rw [h] at hm
  exact absurd hm (List.not_mem_nil l)

theorem Stranded_resumeLoop (i : ℕ) (s : AppState) (hi : i < s.loops.length)
    (h : NotStranded s) : NotStranded (resumeLoop i s) := by
  obtain ⟨t, l, _, h2, h3, h4, h5⟩ := resumeLoop_spec i s
  constructor
  · intro hq
    rw [h3]
    apply h.1
    intro hn
    rw [hn] at h2
    exact hq (List.append_eq_nil.mp h2).2
  · intro hp
    rw [h3] at hp
    apply liveLoops_ne_nil_of_mem _ l
    · rw [h4]
      exact List.mem_iff_getElem?.mpr ⟨i, by rw [List.getElem?_set]; simp [hi]⟩
    · intro hl
      rw [h5.mp hl] at hp
      exact Bool.noConfusion hp

theorem Stranded_initAudioQueue (s : AppState) (h : NotStranded s) :
    NotStranded (initAudioQueue s) := by
  rcases initAudioQueue_spec s with ⟨hp, _, h2, h3, h4⟩ | ⟨_, t, l, _, _, h3, h4, h5⟩
  · refine ⟨fun _ => h3, fun _ => ?_⟩
    have := h.2 hp
    unfold liveLoops at this ⊢
    rw [h4]
    exact this
  · refine ⟨fun _ => h3, fun _ => ?_⟩
    exact liveLoops_ne_nil_of_mem _ l (by rw [h4]; simp) h5

theorem Stranded_addToAudioQueue (audioData : String) (config : Config) (s : AppState)
    (h : NotStranded s) : NotStranded (addToAudioQueue audioData config s) := by
  rcases addToAudioQueue_spec audioData config s
    with ⟨hp, _, h2, h3, h4⟩ | ⟨_, t, l, _, _, h3, h4, h5⟩
  · refine ⟨fun _ => h3, fun _ => ?_⟩
    have := h.2 hp
    unfold liveLoops at this ⊢
    rw [h4]
    exact this
  · refine ⟨fun _ => h3, fun _ => ?_⟩
    exact liveLoops_ne_nil_of_mem _ l (by rw [h4]; simp) h5

theorem Stranded_apply (e : PlaybackEvent) (s : AppState) (h : NotStranded s) :
    NotStranded (e.apply s) := by
  cases e with
  | initAudioQueue => exact Stranded_initAudioQueue s h
  | addToAudioQueue audioData config => exact Stranded_addToAudioQueue audioData config s h
  | clearAudioQueue =>
    exact ⟨fun hq => absurd rfl hq, fun hp => h.2 hp⟩
  | beforeunload =>
    obtain ⟨h1, h2, _, _⟩ := beforeunload_spec s
    constructor
    · intro hq; exact absurd h1 hq
    · intro hp
      simp only [PlaybackEvent.apply] at hp
      rw [h2] at hp
      exact Bool.noConfusion hp
  | renderEnded i =>
    simp only [PlaybackEvent.apply, renderEnded]
    split
    · next item hi =>
      refine Stranded_resumeLoop i s ?_ h
      rw [List.get?_eq_getElem?] at hi
      by_contra hlt
      rw [List.getElem?_eq_none (by omega)] at hi
      exact Option.noConfusion hi
    · exact h
  | pollTimer i =>
    simp only [PlaybackEvent.apply, pollTimer]
    split
    · next hi =>
      refine Stranded_resumeLoop i s ?_ h
      rw [List.get?_eq_getElem?] at hi
      by_contra hlt
      rw [List.getElem?_eq_none (by omega)] at hi
      exact Option.noConfusion hi
    · exact h

theorem Stranded_run (es : List PlaybackEvent) :
    ∀ s : AppState, NotStranded s → NotStranded (run es s) := by
  induction es with
  | nil => intro s h; exact h
  | cons e es ih => intro s h; rw [run_cons]; exact ih _ (Stranded_apply e s h)

theorem Stranded_initial : NotStranded AppState.initial :=
  ⟨fun hq => absurd rfl hq, fun hp => Bool.noConfusion hp⟩

end Stranded

section StrandedSecond

theorem Goodluck_NotStranded_of_eq {s t : Goodluck.AppState}
    (h1 : t.audioBufferQueue = s.audioBufferQueue) (h2 : t.isPlaying = s.isPlaying)
    (h : Goodluck.NotStranded s) : Goodluck.NotStranded t := by
  unfold Goodluck.NotStranded at *
  rw [h1, h2]
  exact h

theorem Goodluck_NotStranded_playQueue (s : Goodluck.AppState) :
    Goodluck.NotStranded (Goodluck.playQueue s) := by
  unfold Goodluck.playQueue Goodluck.NotStranded
  split
  · next hq => intro hne; exact absurd hq hne
  · intro _; rfl

theorem Goodluck_NotStranded_decodeSettled (ok : Bool) (s : Goodluck.AppState)
    (h : Goodluck.NotStranded s) : Goodluck.NotStranded (Goodluck.decodeSettled ok s) := by
  unfold Goodluck.decodeSettled
  split
  · exact h
  · simp only []
    split
    · split
      · exact Goodluck_NotStranded_playQueue _
      · next hp =>
        intro _
        simpa using hp
    · exact Goodluck_NotStranded_of_eq rfl rfl h

theorem updateAssistantMessage_playback (t : Option String) (x : Goodluck.AppState) :
    (Goodluck.updateAssistantMessage t x).audioBufferQueue = x.audioBufferQueue ∧
    (Goodluck.updateAssistantMessage t x).isPlaying = x.isPlaying := by
  unfold Goodluck.updateAssistantMessage
  split
  · split
    · exact ⟨rfl, rfl⟩
    · exact ⟨rfl, rfl⟩
  · exact ⟨rfl, rfl⟩

theorem clearDialog_playback (x : Goodluck.AppState) :
    (Goodluck.clearDialog x).audioBufferQueue = x.audioBufferQueue ∧
    (Goodluck.clearDialog x).isPlaying = x.isPlaying := by
  unfold Goodluck.clearDialog
  simp only []
  split
  · exact ⟨rfl, rfl⟩
  · exact ⟨rfl, rfl⟩

theorem switchType_playback (data : Goodluck.ServerMessage) (x : Goodluck.AppState) :
    (Goodluck.switchType data x).audioBufferQueue = x.audioBufferQueue ∧
    (Goodluck.switchType data x).isPlaying = x.isPlaying := by
  unfold Goodluck.switchType
  split_ifs
  · exact ⟨rfl, rfl⟩
  · exact ⟨rfl, rfl⟩
  · exact ⟨rfl, rfl⟩
  · exact updateAssistantMessage_playback _ _
  · exact ⟨rfl, rfl⟩
  · exact clearDialog_playback _
  · exact ⟨rfl, rfl⟩

theorem switchMessageType_playback (data : Goodluck.ServerMessage)
    (x : Goodluck.AppState) :
    (Goodluck.switchMessageType data x).1.audioBufferQueue = x.audioBufferQueue ∧
    (Goodluck.switchMessageType data x).1.isPlaying = x.isPlaying := by
  unfold Goodluck.switchMessageType
  split_ifs
  · split
    · split
      · split
        · exact ⟨rfl, rfl⟩
        · exact ⟨rfl, rfl⟩
      · exact ⟨rfl, rfl⟩
    · exact ⟨rfl, rfl⟩
  · split
    · split
      · exact updateAssistantMessage_playback _ _
      · exact ⟨rfl, rfl⟩
    · exact ⟨rfl, rfl⟩
  · exact ⟨rfl, rfl⟩
  · exact ⟨rfl, rfl⟩

theorem Goodluck_NotStranded_apply (e : Goodluck.Event) (s : Goodluck.AppState)
    (h : Goodluck.NotStranded s) : Goodluck.NotStranded (e.apply s) := by
  cases e with
  | wsOpen i =>
    simp only [Goodluck.Event.apply, Goodluck.wsOpenEvent]
    split
    · exact Goodluck_NotStranded_of_eq rfl rfl h
    · exact h
  | wsMessage data =>
    obtain ⟨a1, a2⟩ := switchType_playback data s
    obtain ⟨b1, b2⟩ := switchMessageType_playback data (Goodluck.switchType data s)
    exact Goodluck_NotStranded_of_eq (b1.trans a1) (b2.trans a2) h
  | wsError => exact Goodluck_NotStranded_of_eq rfl rfl h
  | wsClose i =>
    simp only [Goodluck.Event.apply, Goodluck.wsCloseEvent]
    split
    · split
      · exact h
      · exact Goodluck_NotStranded_of_eq rfl rfl h
    · exact h
  | reconnectTimer =>
    simp only [Goodluck.Event.apply, Goodluck.reconnectTimerFires]
    split
    · split
      · exact Goodluck_NotStranded_of_eq rfl rfl h
      · split
        · exact Goodluck_NotStranded_of_eq rfl rfl h
        · exact Goodluck_NotStranded_of_eq rfl rfl h
    · exact h
  | decodeSettled ok => exact Goodluck_NotStranded_decodeSettled ok s h
  | sourceEnded =>
    simp only [Goodluck.Event.apply]
    split
    · exact Goodluck_NotStranded_playQueue s
    · exact h
  | beforeunload =>
    simp only [Goodluck.Event.apply, Goodluck.beforeunload]
    split
    · split
      · exact Goodluck_NotStranded_of_eq rfl rfl h
      · exact Goodluck_NotStranded_of_eq rfl rfl h
    · exact h

theorem Goodluck_NotStranded_foldl (es : List Goodluck.Event) :
    ∀ s : Goodluck.AppState, Goodluck.NotStranded s →
      Goodluck.NotStranded (es.foldl (fun s e => e.apply s) s) := by
  induction es with
  | nil => intro s h; exact h
  | cons e es ih => intro s h; exact ih _ (Goodluck_NotStranded_apply e s h)

end StrandedSecond

/-- C15: in every state `web/static/app.js` reaches from page load through enqueues,
flushes, render completions, timer wake-ups and the teardown handler, a queue that is
not empty has `isAudioPlaying` set and an invocation of `processAudioQueue` that has not
returned; in every state `webGoodluck/static/app.js` reaches after page load, a queue
that is not empty has `isPlaying` set. -/
theorem C15_not_stranded (es : List PlaybackEvent) (gs : List Goodluck.Event) :
    ((run es AppState.initial).audioQueue ≠ [] →
      (run es AppState.initial).isAudioPlaying = true ∧
        liveLoops (run es AppState.initial) ≠ []) ∧
    ((Goodluck.run gs).audioBufferQueue ≠ [] → (Goodluck.run gs).isPlaying = true) := by
  constructor
  · intro hq
    have h := Stranded_run es AppState.initial Stranded_initial
    exact ⟨h.1 hq, h.2 (h.1 hq)⟩
  · exact Goodluck_NotStranded_foldl gs _ (fun hq => absurd rfl hq)

theorem C15_not_stranded_witness :
    (run [.initAudioQueue, .addToAudioQueue "QQ==" bareConfig] AppState.initial).audioQueue
      ≠ [] ∧
    (Goodluck.run [.wsMessage (Goodluck.ackMessage "QQ=="),
        .wsMessage (Goodluck.ackMessage "Qg=="), .decodeSettled true, .decodeSettled true]).audioBufferQueue ≠ [] ∧
    (run [.initAudioQueue, .addToAudioQueue "QQ==" bareConfig] AppState.initial).isAudioPlaying
      = true ∧
    (Goodluck.run [.wsMessage (Goodluck.ackMessage "QQ=="),
        .wsMessage (Goodluck.ackMessage "Qg=="), .decodeSettled true, .decodeSettled true]).isPlaying = true :=
  ⟨by decide, by decide,
    ((C15_not_stranded [.initAudioQueue, .addToAudioQueue "QQ==" bareConfig] []).1
      (by decide)).1,
    (C15_not_stranded [] [.wsMessage (Goodluck.ackMessage "QQ=="),
        .wsMessage (Goodluck.ackMessage "Qg=="), .decodeSettled true, .decodeSettled true]).2
      (by decide)⟩
